import Mathlib

/-!
# Verification of the ECS_Modules simulation core

Shallow embedding of the repository's ECS registry (`libs/ecs`), the parallel
zip iterator (`ecs/zipper.hpp`) and the game engine pipeline
(`engine/engine.hpp`, `engine/resources.hpp`).

Modelling conventions:
* C++ `float` values are modelled as exact rationals (`ℚ`).  The single use of
  `std::numeric_limits<float>::infinity()` (weapon cooldown when `rate == 0`)
  is modelled by an `Option ℚ` timer where `none` stands for `+∞`.
  `FLT_MAX` (the initial best distance of the AI scans) is modelled by the
  rational constant `floatMax`.
* `std::sqrt` is modelled by `ratSqrt`, which is exact on rationals whose
  numerator and denominator are perfect squares; every theorem below only
  evaluates it at such points.
* `std::size_t` values are modelled as `Nat`; the sentinel
  `static_cast<size_t>(-1)` (`npos`, the invalid-entity value) is `2 ^ 64 - 1`.
* `std::vector<std::optional<T>>` (the `sparse_array`) is `List (Option T)`;
  `std::unordered_map<std::string, T>` appears only through `find`, so it is
  an association list; the `unordered_set` of hit entities appears only
  through `insert` + membership, so it is a duplicate-free `List Nat`.
-/

set_option maxRecDepth 4000
set_option maxHeartbeats 1000000

namespace ECSModules

/-! ## Rational helpers -/

/-- `static_cast<int>(std::round(q))`: rounding half away from zero. -/
def cround (q : ℚ) : ℤ :=
  if 0 ≤ q then ⌊q + 1/2⌋ else ⌈q - 1/2⌉

/-- Fuel-driven integer square root search (structural recursion, so the
kernel can evaluate it): the largest `r ≤ fuel + acc` with `r * r ≤ n`,
starting from `acc`. -/
def isqrtAux (n : ℕ) : ℕ → ℕ → ℕ
  | 0, acc => acc
  | fuel + 1, acc => if (acc + 1) * (acc + 1) ≤ n then isqrtAux n fuel (acc + 1) else acc

/-- Integer square root by linear search: exact on perfect squares. -/
def isqrt (n : ℕ) : ℕ := isqrtAux n n 0

/-- Exact square root on rationals whose numerator and denominator are perfect
squares (the only points at which the development evaluates it); models
`std::sqrt` applied to a non-negative value. -/
def ratSqrt (q : ℚ) : ℚ :=
  (isqrt q.num.toNat : ℚ) / (isqrt q.den : ℚ)

/-- Model of `FLT_MAX`, the initial "best squared distance" of the AI scans;
any distance arising in the simulation is far below it. -/
def floatMax : ℚ := 2 ^ 128

/-- A float that may be `+∞` (`none`); used for the weapon cooldown/timer. -/
abbrev QInf := Option ℚ

/-- `t > 0` on a possibly-infinite float. -/
def qinfPos : QInf → Bool
  | none => true
  | some q => decide (0 < q)

/-- `t ≤ 0` on a possibly-infinite float. -/
def qinfNonpos : QInf → Bool
  | none => false
  | some q => decide (q ≤ 0)

/-- `t - d` on a possibly-infinite float. -/
def qinfSub : QInf → ℚ → QInf
  | none, _ => none
  | some q, d => some (q - d)

/-! ## `sparse_array<T>` (ecs.hpp): a growable vector of optionals -/

/-- `sparse_array::operator[] const`: reading out of bounds yields absent. -/
def sget (arr : List (Option α)) (i : ℕ) : Option α :=
  arr.getD i none

/-- Growing the backing vector to length at least `n`, filling with absent
(`_data.resize(idx + 1)` inside the mutable `operator[]`). -/
def sgrow (arr : List (Option α)) (n : ℕ) : List (Option α) :=
  arr ++ List.replicate (n - arr.length) none

/-- `emplace_at`/`insert_at`: grow as needed, then store a present value. -/
def sset (arr : List (Option α)) (i : ℕ) (v : α) : List (Option α) :=
  (sgrow arr (i + 1)).set i (some v)

/-- `sparse_array::erase`: mark absent if in range, no-op otherwise. -/
def serase (arr : List (Option α)) (i : ℕ) : List (Option α) :=
  if i < arr.length then arr.set i none else arr

@[simp] theorem sget_nil (i : ℕ) : sget ([] : List (Option α)) i = none := by
  simp [sget]

@[simp] theorem sget_cons_zero (a : Option α) (t : List (Option α)) :
    sget (a :: t) 0 = a := rfl

@[simp] theorem sget_cons_succ (a : Option α) (t : List (Option α)) (i : ℕ) :
    sget (a :: t) (i + 1) = sget t i := rfl

@[simp] theorem sget_replicate (n i : ℕ) :
    sget (List.replicate n (none : Option α)) i = none := by
  unfold sget
  rw [List.getD_eq_getElem?_getD, List.getElem?_replicate]
  split <;> rfl

theorem sget_sgrow (arr : List (Option α)) (n j : ℕ) :
    sget (sgrow arr n) j = sget arr j := by
  unfold sget sgrow
  rw [List.getD_eq_getElem?_getD, List.getD_eq_getElem?_getD]
  by_cases hj : j < arr.length
  · rw [List.getElem?_append_left hj]
  · rw [List.getElem?_eq_none (Nat.le_of_not_lt hj),
      List.getElem?_append_right (Nat.le_of_not_lt hj), List.getElem?_replicate]
    split <;> rfl

theorem length_sgrow (arr : List (Option α)) (n : ℕ) :
    (sgrow arr n).length = max arr.length n := by
  simp only [sgrow, List.length_append, List.length_replicate]
  omega

theorem sgrow_of_le (arr : List (Option α)) (h : n ≤ arr.length) :
    sgrow arr n = arr := by
  simp [sgrow, Nat.sub_eq_zero_of_le h]

theorem sgrow_cons (a : Option α) (t : List (Option α)) (n : ℕ) :
    sgrow (a :: t) (n + 1) = a :: sgrow t n := by
  unfold sgrow
  simp only [List.length_cons, List.cons_append]
  have h : n + 1 - (t.length + 1) = n - t.length := by omega
  rw [h]

theorem sset_of_lt (arr : List (Option α)) (i : ℕ) (v : α) (h : i < arr.length) :
    sset arr i v = arr.set i (some v) := by
  simp [sset, sgrow_of_le arr h]

@[simp] theorem sset_cons_zero (a : Option α) (t : List (Option α)) (v : α) :
    sset (a :: t) 0 v = some v :: t := by
  rw [sset_of_lt (a :: t) 0 v (by simp)]
  rfl

@[simp] theorem sset_cons_succ (a : Option α) (t : List (Option α)) (i : ℕ) (v : α) :
    sset (a :: t) (i + 1) v = a :: sset t i v := by
  unfold sset
  rw [sgrow_cons]
  rfl

@[simp] theorem serase_nil (i : ℕ) : serase ([] : List (Option α)) i = [] := by
  simp [serase]

@[simp] theorem serase_cons_zero (a : Option α) (t : List (Option α)) :
    serase (a :: t) 0 = none :: t := by
  simp [serase]

@[simp] theorem serase_cons_succ (a : Option α) (t : List (Option α)) (i : ℕ) :
    serase (a :: t) (i + 1) = a :: serase t i := by
  unfold serase
  by_cases h : i < t.length
  · rw [if_pos (by simp only [List.length_cons]; omega), if_pos h]
    rfl
  · rw [if_neg (by simp only [List.length_cons]; omega), if_neg h]

theorem sget_sset_self (arr : List (Option α)) (i : ℕ) (v : α) :
    sget (sset arr i v) i = some v := by
  have h : i < (sgrow arr (i + 1)).length := by
    rw [length_sgrow]; omega
  unfold sset sget
  rw [List.getD_eq_getElem?_getD, List.getElem?_set_self h]
  rfl

theorem sget_sset_ne (arr : List (Option α)) (i j : ℕ) (v : α) (h : j ≠ i) :
    sget (sset arr i v) j = sget arr j := by
  unfold sset
  have h2 : sget ((sgrow arr (i + 1)).set i (some v)) j = sget (sgrow arr (i + 1)) j := by
    unfold sget
    rw [List.getD_eq_getElem?_getD, List.getD_eq_getElem?_getD,
      List.getElem?_set_ne (Ne.symm h)]
  rw [h2, sget_sgrow]

theorem sget_serase_self (arr : List (Option α)) (i : ℕ) :
    sget (serase arr i) i = none := by
  unfold serase
  by_cases h : i < arr.length
  · rw [if_pos h]
    unfold sget
    rw [List.getD_eq_getElem?_getD, List.getElem?_set_self h]
    rfl
  · rw [if_neg h]
    unfold sget
    rw [List.getD_eq_getElem?_getD, List.getElem?_eq_none (Nat.le_of_not_lt h)]
    rfl

theorem sget_serase_ne (arr : List (Option α)) (i j : ℕ) (h : j ≠ i) :
    sget (serase arr i) j = sget arr j := by
  unfold serase
  by_cases hi : i < arr.length
  · rw [if_pos hi]
    unfold sget
    rw [List.getD_eq_getElem?_getD, List.getD_eq_getElem?_getD,
      List.getElem?_set_ne (Ne.symm h)]
  · rw [if_neg hi]

/-! ## The registry's entity bookkeeping (ecs.hpp `registry`)

`_alive` is the vector of liveness flags, `_free_ids` the LIFO free list
(`push_back`/`back`/`pop_back` on a `std::vector`, modelled with the list head
as the top of the stack). -/

/-- The invalid entity value: `static_cast<size_t>(-1)` on a 64-bit platform. -/
def npos : ℕ := 2 ^ 64 - 1

/-- Registry entity bookkeeping: liveness flags and the free list. -/
structure RegState where
  alive : List Bool
  freeIds : List ℕ
deriving DecidableEq, Repr

/-- The freshly constructed registry. -/
def RegState.fresh : RegState := ⟨[], []⟩

/-- Is index `id` alive?  Out-of-range indices count as dead. -/
def RegState.aliveAt (st : RegState) (id : ℕ) : Bool :=
  st.alive.getD id false

/-- `registry::spawn_entity`: pop the free list if possible, else extend the
index space by one.  Returns the new state and the spawned index.  Note that
`_alive.resize(id + 1, true)` fills intermediate slots with `true`, exactly as
the source does. -/
def RegState.spawnEntity (st : RegState) : RegState × ℕ :=
  match st.freeIds with
  | id :: rest =>
      (⟨if id < st.alive.length then st.alive.set id true
        else st.alive ++ List.replicate (id + 1 - st.alive.length) true,
        rest⟩, id)
  | [] => (⟨st.alive ++ [true], st.freeIds⟩, st.alive.length)

/-- `registry::kill_entity` restricted to the bookkeeping (the per-component
erasers touch only the component stores): no-op if out of range or dead,
otherwise mark dead and push onto the free list. -/
def RegState.killEntity (st : RegState) (id : ℕ) : RegState :=
  if st.aliveAt id then ⟨st.alive.set id false, id :: st.freeIds⟩ else st

/-- Number of `true` liveness flags. -/
def countTrue : List Bool → ℕ
  | [] => 0
  | true :: t => countTrue t + 1
  | false :: t => countTrue t

/-- Number of alive entities. -/
def RegState.aliveCount (st : RegState) : ℕ :=
  countTrue st.alive

theorem countTrue_append (l₁ l₂ : List Bool) :
    countTrue (l₁ ++ l₂) = countTrue l₁ + countTrue l₂ := by
  induction l₁ with
  | nil => simp [countTrue]
  | cons a t ih => cases a <;> simp [countTrue, ih] <;> omega

theorem countTrue_set_true (l : List Bool) (i : ℕ) (h : i < l.length)
    (hd : l.getD i false = false) :
    countTrue (l.set i true) = countTrue l + 1 := by
  induction l generalizing i with
  | nil => simp at h
  | cons a t ih =>
      cases i with
      | zero =>
          cases a
          · simp [List.set, countTrue]
          · simp [List.getD] at hd
      | succ n =>
          have h' : n < t.length := by simpa using h
          have hd' : t.getD n false = false := hd
          cases a <;> simp [List.set, countTrue, ih n h' hd']

theorem countTrue_set_false (l : List Bool) (i : ℕ) (h : i < l.length)
    (hd : l.getD i false = true) :
    countTrue (l.set i false) + 1 = countTrue l := by
  induction l generalizing i with
  | nil => simp at h
  | cons a t ih =>
      cases i with
      | zero =>
          cases a
          · simp [List.getD] at hd
          · simp [List.set, countTrue]
      | succ n =>
          have h' : n < t.length := by simpa using h
          have hd' : t.getD n false = true := hd
          cases a <;> simp [List.set, countTrue, ih n h' hd']

theorem getD_false_of_ge (l : List Bool) (i : ℕ) (h : l.length ≤ i) :
    l.getD i false = false := by
  rw [List.getD_eq_getElem?_getD, List.getElem?_eq_none h]
  rfl

theorem getD_set_self_bool (l : List Bool) (i : ℕ) (b : Bool) (h : i < l.length) :
    (l.set i b).getD i false = b := by
  rw [List.getD_eq_getElem?_getD, List.getElem?_set_self h]
  rfl

theorem getD_set_ne_bool (l : List Bool) (i j : ℕ) (b : Bool) (h : j ≠ i) :
    (l.set i b).getD j false = l.getD j false := by
  rw [List.getD_eq_getElem?_getD, List.getD_eq_getElem?_getD,
    List.getElem?_set_ne (Ne.symm h)]

/-- A spawn/kill command against the registry. -/
inductive RegOp where
  | spawnOp : RegOp
  | killOp (id : ℕ) : RegOp
deriving DecidableEq, Repr

/-- Run a sequence of operations from a state. -/
def runOps (st : RegState) : List RegOp → RegState
  | [] => st
  | RegOp.spawnOp :: rest => runOps (st.spawnEntity).1 rest
  | RegOp.killOp id :: rest => runOps (st.killEntity id) rest

/-- Number of spawns in a sequence. -/
def spawnCount : List RegOp → ℕ
  | [] => 0
  | RegOp.spawnOp :: rest => spawnCount rest + 1
  | RegOp.killOp _ :: rest => spawnCount rest

/-- Number of *effective* kills in a sequence run from `st`: a `kill` counts
only if its target is alive (and in range) at the moment it executes. -/
def effKillCount (st : RegState) : List RegOp → ℕ
  | [] => 0
  | RegOp.spawnOp :: rest => effKillCount (st.spawnEntity).1 rest
  | RegOp.killOp id :: rest =>
      (if st.aliveAt id then 1 else 0) + effKillCount (st.killEntity id) rest

/-- Well-formedness of the registry bookkeeping: the free list has no
duplicates and holds only dead, in-range indices. -/
def RegWF (st : RegState) : Prop :=
  st.freeIds.Nodup ∧
    ∀ id ∈ st.freeIds, id < st.alive.length ∧ st.alive.getD id false = false

theorem regWF_fresh : RegWF RegState.fresh := by
  constructor
  · exact List.nodup_nil
  · intro id h
    simp [RegState.fresh] at h

theorem regWF_spawn (st : RegState) (h : RegWF st) : RegWF (st.spawnEntity).1 := by
  rcases st with ⟨alive, free⟩
  cases free with
  | nil =>
      refine ⟨List.nodup_nil, ?_⟩
      intro id hid
      simp [RegState.spawnEntity] at hid
  | cons id rest =>
      have hnd := h.1
      have hmem := h.2
      have hid : id < alive.length := (hmem id (by simp)).1
      simp only [RegState.spawnEntity, hid, if_pos]
      refine ⟨(List.nodup_cons.mp hnd).2, ?_⟩
      intro j hj
      have hj' := hmem j (List.mem_cons_of_mem id hj)
      have hjid : j ≠ id := fun hEq => (List.nodup_cons.mp hnd).1 (hEq ▸ hj)
      exact ⟨by simpa using hj'.1, by rw [getD_set_ne_bool _ _ _ _ hjid]; exact hj'.2⟩

theorem regWF_kill (st : RegState) (h : RegWF st) (id : ℕ) : RegWF (st.killEntity id) := by
  rcases st with ⟨alive, free⟩
  unfold RegState.killEntity
  by_cases halive : RegState.aliveAt ⟨alive, free⟩ id
  · rw [if_pos halive]
    have hrange : id < alive.length := by
      by_contra hge
      have := getD_false_of_ge alive id (Nat.le_of_not_lt hge)
      simp only [RegState.aliveAt] at halive
      rw [this] at halive
      exact Bool.false_ne_true halive
    have hnotfree : id ∉ free := by
      intro hmem
      have hdead := (h.2 id hmem).2
      simp only [RegState.aliveAt] at halive
      rw [hdead] at halive
      exact Bool.false_ne_true halive
    refine ⟨List.nodup_cons.mpr ⟨hnotfree, h.1⟩, ?_⟩
    intro j hj
    rcases List.mem_cons.mp hj with rfl | hj'
    · exact ⟨by simpa using hrange, by rw [getD_set_self_bool _ _ _ hrange]⟩
    · have h2 := h.2 j hj'
      by_cases hji : j = id
      · subst hji
        exact ⟨by simpa using hrange, by rw [getD_set_self_bool _ _ _ hrange]⟩
      · exact ⟨by simpa using h2.1, by rw [getD_set_ne_bool _ _ _ _ hji]; exact h2.2⟩
  · rw [if_neg halive]
    exact h

theorem aliveCount_spawn (st : RegState) (h : RegWF st) :
    (st.spawnEntity).1.aliveCount = st.aliveCount + 1 := by
  rcases st with ⟨alive, free⟩
  cases free with
  | nil =>
      simp [RegState.spawnEntity, RegState.aliveCount, countTrue_append, countTrue]
  | cons id rest =>
      have hid : id < alive.length := (h.2 id (by simp)).1
      have hdead : alive.getD id false = false := (h.2 id (by simp)).2
      simp only [RegState.spawnEntity, hid, if_pos, RegState.aliveCount]
      exact countTrue_set_true alive id hid hdead

theorem aliveCount_kill (st : RegState) (id : ℕ) :
    st.aliveCount = ((st.killEntity id).aliveCount) + (if st.aliveAt id then 1 else 0) := by
  rcases st with ⟨alive, free⟩
  unfold RegState.killEntity
  by_cases halive : RegState.aliveAt ⟨alive, free⟩ id
  · have hrange : id < alive.length := by
      by_contra hge
      have := getD_false_of_ge alive id (Nat.le_of_not_lt hge)
      simp only [RegState.aliveAt] at halive
      rw [this] at halive
      exact Bool.false_ne_true halive
    have hat : alive.getD id false = true := halive
    rw [if_pos halive]
    simp only [halive, if_pos, RegState.aliveCount]
    rw [← countTrue_set_false alive id hrange hat]
  · rw [if_neg halive]
    simp [halive, RegState.aliveCount]

theorem aliveCount_runOps (ops : List RegOp) :
    ∀ st : RegState, RegWF st →
      (runOps st ops).aliveCount + effKillCount st ops = st.aliveCount + spawnCount ops := by
  induction ops with
  | nil => intro st _; simp [runOps, effKillCount, spawnCount]
  | cons op rest ih =>
      intro st hwf
      cases op with
      | spawnOp =>
          have h1 := ih (st.spawnEntity).1 (regWF_spawn st hwf)
          simp only [runOps, effKillCount, spawnCount]
          have h2 := aliveCount_spawn st hwf
          omega
      | killOp id =>
          have h1 := ih (st.killEntity id) (regWF_kill st hwf id)
          simp only [runOps, effKillCount, spawnCount]
          have h2 := aliveCount_kill st id
          omega

theorem regWF_runOps (ops : List RegOp) :
    ∀ st : RegState, RegWF st → RegWF (runOps st ops) := by
  induction ops with
  | nil => intro st h; exact h
  | cons op rest ih =>
      intro st hwf
      cases op with
      | spawnOp => exact ih _ (regWF_spawn st hwf)
      | killOp id => exact ih _ (regWF_kill st hwf id)

theorem spawn_returns_dead_index (st : RegState) (h : RegWF st) :
    st.aliveAt (st.spawnEntity).2 = false := by
  rcases st with ⟨alive, free⟩
  cases free with
  | nil =>
      simp only [RegState.spawnEntity, RegState.aliveAt]
      exact getD_false_of_ge alive alive.length (le_refl _)
  | cons id rest =>
      exact (h.2 id (by simp)).2

/-- C6: for every finite sequence of `spawn_entity`/`kill_entity` calls run
from a fresh registry, the number of alive entities equals the number of
spawns minus the number of effective kills (kills of dead or out-of-range
indices are no-ops and do not count), and no spawn ever hands out an index
that is simultaneously alive — so no two simultaneously alive entities share
an index. -/
theorem registry_alive_accounting (ops : List RegOp) :
    (runOps RegState.fresh ops).aliveCount
        = spawnCount ops - effKillCount RegState.fresh ops ∧
    effKillCount RegState.fresh ops ≤ spawnCount ops ∧
    (∀ pre post, ops = pre ++ RegOp.spawnOp :: post →
      (runOps RegState.fresh pre).aliveAt
        ((runOps RegState.fresh pre).spawnEntity).2 = false) := by
  have hmain := aliveCount_runOps ops RegState.fresh regWF_fresh
  have hfreshcount : RegState.fresh.aliveCount = 0 := rfl
  rw [hfreshcount] at hmain
  refine ⟨by omega, by omega, ?_⟩
  intro pre post _
  exact spawn_returns_dead_index (runOps RegState.fresh pre)
    (regWF_runOps pre RegState.fresh regWF_fresh)

/-- Closed witness for `registry_alive_accounting`: the sequence
spawn, spawn, kill 0, kill 0 (second kill is a no-op), spawn. -/
theorem registry_alive_accounting_witness :
    (runOps RegState.fresh
        [RegOp.spawnOp, RegOp.spawnOp, RegOp.killOp 0, RegOp.killOp 0,
         RegOp.spawnOp]).aliveCount
      = spawnCount [RegOp.spawnOp, RegOp.spawnOp, RegOp.killOp 0, RegOp.killOp 0,
          RegOp.spawnOp]
        - effKillCount RegState.fresh [RegOp.spawnOp, RegOp.spawnOp,
            RegOp.killOp 0, RegOp.killOp 0, RegOp.spawnOp] ∧
    (runOps RegState.fresh
        [RegOp.spawnOp, RegOp.spawnOp, RegOp.killOp 0, RegOp.killOp 0]).aliveAt
      ((runOps RegState.fresh
        [RegOp.spawnOp, RegOp.spawnOp, RegOp.killOp 0, RegOp.killOp 0]).spawnEntity).2
      = false := by
  have h := registry_alive_accounting
    [RegOp.spawnOp, RegOp.spawnOp, RegOp.killOp 0, RegOp.killOp 0, RegOp.spawnOp]
  exact ⟨h.1, h.2.2 [RegOp.spawnOp, RegOp.spawnOp, RegOp.killOp 0, RegOp.killOp 0]
    [] rfl⟩

/-- `entity_t::operator bool`: valid iff the value differs from `npos`. -/
def entityValid (v : ℕ) : Bool := decide (v ≠ npos)

/-- C9: `spawn_entity` returns the designated invalid (default-constructed)
handle exactly when the index space is exhausted (no free index and the alive
vector already spans all `2^64 - 1` representable indices); in every other
well-formed registry state it returns a valid handle.  No exception is
involved: `spawnEntity` is a total function. -/
theorem spawn_invalid_iff_exhausted (st : RegState)
    (hfree : ∀ id ∈ st.freeIds, id ≠ npos) :
    entityValid (st.spawnEntity).2 = false ↔
      st.freeIds = [] ∧ st.alive.length = npos := by
  rcases st with ⟨alive, free⟩
  cases free with
  | nil =>
      show decide (alive.length ≠ npos) = false ↔ _
      rw [decide_eq_false_iff_not, not_not]
      exact ⟨fun h => ⟨rfl, h⟩, fun h => h.2⟩
  | cons id rest =>
      have hid : id ≠ npos := hfree id (by simp)
      show decide (id ≠ npos) = false ↔ _
      rw [decide_eq_false_iff_not, not_not]
      constructor
      · intro h
        exact absurd h hid
      · rintro ⟨h, -⟩
        exact absurd h (by simp)

/-- Closed witness for `spawn_invalid_iff_exhausted`: on the fresh registry the
spawned handle is valid and the registry is not exhausted. -/
theorem spawn_invalid_iff_exhausted_witness :
    (entityValid ((RegState.fresh).spawnEntity).2 = false ↔
      RegState.fresh.freeIds = [] ∧ RegState.fresh.alive.length = npos) := by
  exact spawn_invalid_iff_exhausted RegState.fresh (by intro id h; simp [RegState.fresh] at h)

/-! ## The parallel iterator (`ecs/zipper.hpp`)

The zipper walks indices `0 .. max(size) - 1`; `all_present` requires every
array to be in range and present at the index, `skip_invalid` advances to the
next such index; dereference reads `.value()` of each array.  Two component
arrays of distinct element types instantiate the variadic template. -/

/-- `zipper::iterator::all_present` over two arrays: in range and present in
both. -/
def allPresent2 (as : List (Option α)) (bs : List (Option β)) (i : ℕ) : Bool :=
  (decide (i < as.length) && (sget as i).isSome) &&
  (decide (i < bs.length) && (sget bs i).isSome)

/-- `zipper::iterator::skip_invalid`: advance while below the bound and some
array is missing a component. -/
def skipInvalid2 (as : List (Option α)) (bs : List (Option β)) (maxN i : ℕ) : ℕ :=
  if i < maxN then
    if allPresent2 as bs i then i else skipInvalid2 as bs maxN (i + 1)
  else i
termination_by maxN - i

/-- The sequence of tuples produced by iterating an `indexed_zipper` from
index `i`: repeatedly `skip_invalid`, dereference, advance.  The fuel is the
remaining number of loop steps (each iteration advances the index by at least
one, so `maxN` fuel always suffices; the characterization theorem proves
this). -/
def zipItemsFuel (as : List (Option α)) (bs : List (Option β)) (maxN : ℕ) :
    ℕ → ℕ → List (ℕ × α × β)
  | 0, _ => []
  | fuel + 1, i =>
    let j := skipInvalid2 as bs maxN i
    if j < maxN then
      match sget as j, sget bs j with
      | some a, some b => (j, a, b) :: zipItemsFuel as bs maxN fuel (j + 1)
      | _, _ => []
    else []

/-- All tuples yielded by `ecs::indexed_zip(as, bs)` in iteration order. -/
def zipItems (as : List (Option α)) (bs : List (Option β)) : List (ℕ × α × β) :=
  zipItemsFuel as bs (max as.length bs.length) (max as.length bs.length) 0

/-- The loop of the plain `ecs::zip(as, bs)`: identical skip logic, the
dereference omits the index. -/
def zipPlainFuel (as : List (Option α)) (bs : List (Option β)) (maxN : ℕ) :
    ℕ → ℕ → List (α × β)
  | 0, _ => []
  | fuel + 1, i =>
    let j := skipInvalid2 as bs maxN i
    if j < maxN then
      match sget as j, sget bs j with
      | some a, some b => (a, b) :: zipPlainFuel as bs maxN fuel (j + 1)
      | _, _ => []
    else []

/-- All tuples yielded by `ecs::zip(as, bs)` in iteration order. -/
def zipItemsPlain (as : List (Option α)) (bs : List (Option β)) : List (α × β) :=
  zipPlainFuel as bs (max as.length bs.length) (max as.length bs.length) 0

/-- Specification-side description: one tuple per present index, in
increasing index order. -/
def zipSpec (as : List (Option α)) (bs : List (Option β)) : List (ℕ × α × β) :=
  (List.range (max as.length bs.length)).filterMap (fun i =>
    match sget as i, sget bs i with
    | some a, some b => some (i, a, b)
    | _, _ => none)

theorem skipInvalid2_ge (as : List (Option α)) (bs : List (Option β)) (maxN i : ℕ) :
    i ≤ skipInvalid2 as bs maxN i := by
  unfold skipInvalid2
  split
  · split
    · exact le_refl i
    · have := skipInvalid2_ge as bs maxN (i + 1)
      omega
  · exact le_refl i
termination_by maxN - i

theorem skipInvalid2_le (as : List (Option α)) (bs : List (Option β)) (maxN i : ℕ)
    (h : i ≤ maxN) : skipInvalid2 as bs maxN i ≤ maxN := by
  unfold skipInvalid2
  split
  · split
    · omega
    · exact skipInvalid2_le as bs maxN (i + 1) (by omega)
  · exact h
termination_by maxN - i

theorem skipInvalid2_eq (as : List (Option α)) (bs : List (Option β)) (maxN i : ℕ) :
    skipInvalid2 as bs maxN i =
      if i < maxN then
        if allPresent2 as bs i then i else skipInvalid2 as bs maxN (i + 1)
      else i := by
  conv_lhs => unfold skipInvalid2

theorem skipInvalid2_present (as : List (Option α)) (bs : List (Option β)) (maxN i : ℕ)
    (h : skipInvalid2 as bs maxN i < maxN) :
    allPresent2 as bs (skipInvalid2 as bs maxN i) = true := by
  by_cases hi : i < maxN
  · by_cases hp : allPresent2 as bs i
    · rw [skipInvalid2_eq, if_pos hi, if_pos hp]
      exact hp
    · rw [skipInvalid2_eq, if_pos hi, if_neg (by simpa using hp)]
      apply skipInvalid2_present as bs maxN (i + 1)
      rw [skipInvalid2_eq, if_pos hi, if_neg (by simpa using hp)] at h
      exact h
  · exfalso
    rw [skipInvalid2_eq, if_neg hi] at h
    omega
termination_by maxN - i

theorem skipInvalid2_skipped (as : List (Option α)) (bs : List (Option β)) (maxN i m : ℕ)
    (h1 : i ≤ m) (h2 : m < skipInvalid2 as bs maxN i) :
    allPresent2 as bs m = false := by
  by_cases hi : i < maxN
  · by_cases hp : allPresent2 as bs i
    · rw [skipInvalid2_eq, if_pos hi, if_pos hp] at h2
      omega
    · rw [skipInvalid2_eq, if_pos hi, if_neg (by simpa using hp)] at h2
      by_cases hm : i = m
      · subst hm
        simpa using hp
      · exact skipInvalid2_skipped as bs maxN (i + 1) m (by omega) h2
  · rw [skipInvalid2_eq, if_neg hi] at h2
    omega
termination_by maxN - i

/-- The tuple field of `zipSpec`. -/
def zipField (as : List (Option α)) (bs : List (Option β)) (i : ℕ) :
    Option (ℕ × α × β) :=
  match sget as i, sget bs i with
  | some a, some b => some (i, a, b)
  | _, _ => none

theorem zipField_eq_none_of_absent (as : List (Option α)) (bs : List (Option β))
    (i : ℕ) (h : allPresent2 as bs i = false) : zipField as bs i = none := by
  unfold zipField
  unfold allPresent2 at h
  match has : sget as i, hbs : sget bs i with
  | some a, some b =>
      exfalso
      have hlen : i < as.length := by
        by_contra hge
        unfold sget at has
        rw [List.getD_eq_getElem?_getD, List.getElem?_eq_none (Nat.le_of_not_lt hge)] at has
        exact Option.noConfusion has
      have hlen2 : i < bs.length := by
        by_contra hge
        unfold sget at hbs
        rw [List.getD_eq_getElem?_getD, List.getElem?_eq_none (Nat.le_of_not_lt hge)] at hbs
        exact Option.noConfusion hbs
      rw [has, hbs] at h
      simp [hlen, hlen2] at h
  | some _, none => rfl
  | none, some _ => rfl
  | none, none => rfl

theorem zipField_eq_some_of_present (as : List (Option α)) (bs : List (Option β))
    (i : ℕ) (h : allPresent2 as bs i = true) :
    ∃ a b, sget as i = some a ∧ sget bs i = some b ∧
      zipField as bs i = some (i, a, b) := by
  unfold allPresent2 at h
  match has : sget as i, hbs : sget bs i with
  | some a, some b => exact ⟨a, b, rfl, rfl, by unfold zipField; rw [has, hbs]⟩
  | some _, none => rw [has, hbs] at h; simp at h
  | none, some _ => rw [has, hbs] at h; simp at h
  | none, none => rw [has, hbs] at h; simp at h

theorem zipItemsFuel_eq_segment (as : List (Option α)) (bs : List (Option β))
    (maxN : ℕ) (fuel i : ℕ) (hfuel : maxN - i ≤ fuel) :
    zipItemsFuel as bs maxN fuel i
      = (List.range' i (maxN - i)).filterMap (zipField as bs) := by
  induction fuel generalizing i with
  | zero =>
      have h0 : maxN - i = 0 := by omega
      rw [h0]
      rfl
  | succ fuel ih =>
      show (let j := skipInvalid2 as bs maxN i
        if j < maxN then
          match sget as j, sget bs j with
          | some a, some b => (j, a, b) :: zipItemsFuel as bs maxN fuel (j + 1)
          | _, _ => []
        else []) = _
      by_cases hi : i < maxN
      · have hij := skipInvalid2_ge as bs maxN i
        by_cases hj : skipInvalid2 as bs maxN i < maxN
        · obtain ⟨a, b, ha, hb, hf⟩ :=
            zipField_eq_some_of_present as bs _ (skipInvalid2_present as bs maxN i hj)
          simp only [hj, if_pos, ha, hb]
          set j := skipInvalid2 as bs maxN i with hjdef
          have hrec := ih (j + 1) (by omega)
          rw [hrec]
          have hsplit : maxN - i = maxN - j + (j - i) := by omega
          rw [hsplit, ← List.range'_append_1 i (j - i) (maxN - j)]
          rw [List.filterMap_append]
          have hskip : (List.range' i (j - i)).filterMap (zipField as bs) = [] := by
            rw [List.filterMap_eq_nil_iff]
            intro m hm
            rw [List.mem_range'_1] at hm
            exact zipField_eq_none_of_absent as bs m
              (skipInvalid2_skipped as bs maxN i m hm.1 (by omega))
          rw [hskip]
          have hjrange : i + (j - i) = j := by omega
          rw [hjrange]
          have hcons : maxN - j = (maxN - (j + 1)) + 1 := by omega
          rw [hcons, List.range'_succ]
          simp only [List.nil_append, List.filterMap_cons, hf]
        · simp only [hj, if_neg, if_false]
          symm
          rw [List.filterMap_eq_nil_iff]
          intro m hm
          rw [List.mem_range'_1] at hm
          exact zipField_eq_none_of_absent as bs m
            (skipInvalid2_skipped as bs maxN i m hm.1 (by omega))
      · have h0 : maxN - i = 0 := by omega
        have hj : ¬ skipInvalid2 as bs maxN i < maxN := by
          have := skipInvalid2_ge as bs maxN i
          omega
        simp only [hj, if_neg, if_false]
        rw [h0]
        rfl

/-- If `f` keeps the index as first component, the first components of a
`filterMap` form a sublist of the input. -/
theorem map_fst_filterMap_sublist (l : List ℕ) (f : ℕ → Option (ℕ × α × β))
    (hf : ∀ i e, f i = some e → e.1 = i) :
    ((l.filterMap f).map Prod.fst).Sublist l := by
  induction l with
  | nil => simp
  | cons x xs ih =>
      rw [List.filterMap_cons]
      match hx : f x with
      | none => exact List.Sublist.cons x ih
      | some e =>
          rw [List.map_cons]
          rw [hf x e hx]
          exact List.Sublist.cons₂ x ih

theorem lt_length_of_sget_eq_some (arr : List (Option α)) (i : ℕ) (a : α)
    (h : sget arr i = some a) : i < arr.length := by
  by_contra hge
  unfold sget at h
  rw [List.getD_eq_getElem?_getD, List.getElem?_eq_none (Nat.le_of_not_lt hge)] at h
  exact Option.noConfusion h

theorem zipField_eq_some_iff (as : List (Option α)) (bs : List (Option β))
    (m : ℕ) (e : ℕ × α × β) :
    zipField as bs m = some e ↔
      e.1 = m ∧ sget as m = some e.2.1 ∧ sget bs m = some e.2.2 := by
  unfold zipField
  match has : sget as m, hbs : sget bs m with
  | some a, some b =>
      constructor
      · intro h
        cases h
        exact ⟨rfl, rfl, rfl⟩
      · rintro ⟨h1, h2, h3⟩
        cases h2
        cases h3
        rcases e with ⟨e1, e2, e3⟩
        simp only at h1
        rw [h1]
  | some _, none =>
      constructor
      · intro h
        exact Option.noConfusion h
      · rintro ⟨-, -, h3⟩
        exact Option.noConfusion h3
  | none, some _ =>
      constructor
      · intro h
        exact Option.noConfusion h
      · rintro ⟨-, h2, -⟩
        exact Option.noConfusion h2
  | none, none =>
      constructor
      · intro h
        exact Option.noConfusion h
      · rintro ⟨-, h2, -⟩
        exact Option.noConfusion h2

theorem zipPlainFuel_eq_map (as : List (Option α)) (bs : List (Option β))
    (maxN : ℕ) : ∀ fuel i,
    zipPlainFuel as bs maxN fuel i
      = (zipItemsFuel as bs maxN fuel i).map Prod.snd := by
  intro fuel
  induction fuel with
  | zero => intro i; rfl
  | succ fuel ih =>
      intro i
      simp only [zipPlainFuel, zipItemsFuel]
      by_cases hj : skipInvalid2 as bs maxN i < maxN
      · obtain ⟨a, b, ha, hb, -⟩ :=
          zipField_eq_some_of_present as bs _ (skipInvalid2_present as bs maxN i hj)
        simp only [hj, if_pos, ha, hb, List.map_cons]
        rw [ih]
      · simp only [hj, if_neg, if_false]
        rfl

theorem zipItems_eq_zipSpec (as : List (Option α)) (bs : List (Option β)) :
    zipItems as bs = zipSpec as bs := by
  unfold zipItems zipSpec
  rw [zipItemsFuel_eq_segment as bs (max as.length bs.length)
    (max as.length bs.length) 0 (by omega)]
  rw [List.range_eq_range']
  rfl

/-- C5: iterating the zipper (or the indexed zipper) over two component
stores of arbitrary, possibly differing lengths yields exactly one tuple for
each index at which every store holds a present value — those tuples carry the
stored values, appear in strictly increasing index order, and no yielded index
is absent or out of range in either store (so `.value()` is never dereferenced
on an absent optional); the plain `zip` yields the same tuples without the
index. -/
theorem zipper_yields_exactly_present_indices (as : List (Option α))
    (bs : List (Option β)) :
    zipItems as bs = zipSpec as bs ∧
    (∀ i a b, (i, a, b) ∈ zipItems as bs ↔
      (sget as i = some a ∧ sget bs i = some b)) ∧
    ((zipItems as bs).map Prod.fst).Pairwise (· < ·) ∧
    zipItemsPlain as bs = (zipItems as bs).map Prod.snd := by
  have hkeep : ∀ i e, zipField as bs i = some e → (e : ℕ × α × β).1 = i := by
    intro i e h
    exact ((zipField_eq_some_iff as bs i e).mp h).1
  refine ⟨zipItems_eq_zipSpec as bs, ?_, ?_, ?_⟩
  · intro i a b
    rw [zipItems_eq_zipSpec]
    unfold zipSpec
    rw [List.mem_filterMap]
    constructor
    · rintro ⟨m, _, hm⟩
      have := (zipField_eq_some_iff as bs m (i, a, b)).mp hm
      rcases this with ⟨h1, h2, h3⟩
      simp only at h1
      subst h1
      exact ⟨h2, h3⟩
    · rintro ⟨ha, hb⟩
      refine ⟨i, ?_, (zipField_eq_some_iff as bs i (i, a, b)).mpr ⟨rfl, ha, hb⟩⟩
      rw [List.mem_range]
      have := lt_length_of_sget_eq_some as i a ha
      omega
  · rw [zipItems_eq_zipSpec]
    unfold zipSpec
    exact List.Pairwise.sublist
      (map_fst_filterMap_sublist _ _ hkeep) (List.pairwise_lt_range _)
  · exact zipPlainFuel_eq_map as bs (max as.length bs.length)
      (max as.length bs.length) 0

/-! ## Engine components (engine.hpp) -/

/-- 2D position (entity centre). -/
structure Position where
  x : ℚ := 0
  y : ℚ := 0
deriving DecidableEq, Repr

/-- 2D velocity. -/
structure Velocity where
  x : ℚ := 0
  y : ℚ := 0
deriving DecidableEq, Repr

/-- Scalar movement speed. -/
structure Speed where
  value : ℚ := 0
deriving DecidableEq, Repr

/-- Aim direction (not normalized). -/
structure LookDirection where
  x : ℚ := 1
  y : ℚ := 0
deriving DecidableEq, Repr

/-- Hit points. -/
structure Health where
  value : ℤ := 0
deriving DecidableEq, Repr

/-- Collision box: half extents and centre offset. -/
structure Hitbox where
  halfWidth : ℚ := 1/2
  halfHeight : ℚ := 1/2
  offsetX : ℚ := 0
  offsetY : ℚ := 0
deriving DecidableEq, Repr

/-- Collision parameters: layer, mask, solid, trigger, static flags. -/
structure Collider where
  layer : ℕ := 0
  mask : ℕ := 0
  isSolid : Bool := false
  isTrigger : Bool := true
  isStatic : Bool := false
deriving DecidableEq, Repr

/-- Faction/team identifier. -/
structure Faction where
  id : ℤ := 0
deriving DecidableEq, Repr

/-- Accumulated damage pending application. -/
structure PendingDamage where
  amount : ℤ := 0
  source : ℕ := npos
deriving DecidableEq, Repr

/-- Piercing capacity: remaining hits and set of already-hit entity indices
(`unordered_set` used only through insert/membership: a duplicate-free list). -/
structure Piercing where
  remainingHits : ℤ := 0
  hitEntities : List ℕ := []
deriving DecidableEq, Repr

/-- Contact damage. -/
structure Thorns where
  damage : ℤ := 0
  enabled : Bool := false
deriving DecidableEq, Repr

/-- AI target priority list and per-category selection modes. -/
structure TargetList where
  names : List String := []
  modes : List (String × String) := []
deriving DecidableEq, Repr

/-- Attack range. -/
structure Range where
  value : ℚ := 0
deriving DecidableEq, Repr

/-- Whether the entity can respawn. -/
structure Respawnable where
  value : Bool := false
deriving DecidableEq, Repr

/-- Remaining lifetime. -/
structure Lifetime where
  remaining : ℚ := 0
deriving DecidableEq, Repr

/-- Damage dealt by a projectile. -/
structure Damage where
  value : ℤ := 0
deriving DecidableEq, Repr

/-- Movement pattern: cyclic offset sequence and current index. -/
structure MovementPatternComp where
  offsets : List (ℚ × ℚ) := []
  index : ℕ := 0
deriving DecidableEq, Repr

/-- Staged desired position. -/
structure DesiredPosition where
  x : ℚ := 0
  y : ℚ := 0
deriving DecidableEq, Repr

/-- Input state: movement axes and fire flags. -/
structure InputState where
  moveX : ℚ := 0
  moveY : ℚ := 0
  firePressed : Bool := false
  fireHeld : Bool := false
  fireReleased : Bool := false
deriving DecidableEq, Repr

/-! ## Configuration records (resources.hpp) -/

/-- Simple 2D vector used in the configuration. -/
structure Vec2 where
  x : ℚ := 0
  y : ℚ := 0
deriving DecidableEq, Repr

/-- Movement pattern definition: cyclic offsets. -/
structure MovementPattern where
  offsets : List (ℚ × ℚ) := []
deriving DecidableEq, Repr

/-- Hitbox definition in world units (full width/height). -/
structure HitboxDef where
  width : ℚ := 1
  height : ℚ := 1
  offsetX : ℚ := 0
  offsetY : ℚ := 0
deriving DecidableEq, Repr

/-- Projectile definition. -/
structure ProjectileDef where
  collision : Bool := false
  damage : Bool := false
  width : ℚ := 1
  height : ℚ := 1
deriving DecidableEq, Repr

/-- One charge level's multipliers. -/
structure ChargeLevel where
  damageMul : ℚ := 1
  speedMul : ℚ := 1
  sizeMul : ℚ := 1
  piercingHits : ℤ := 0
deriving DecidableEq, Repr

/-- Charge behaviour of a weapon. -/
structure ChargeSpec where
  maxTime : ℚ := 0
  thresholds : List ℚ := []
  levels : List ChargeLevel := []
deriving DecidableEq, Repr

/-- Weapon definition. -/
structure WeaponDef where
  name : String := ""
  rate : ℚ := 0
  speed : ℚ := 0
  lifetime : ℚ := 0
  damage : ℤ := 0
  projectileName : String := ""
  pattern : MovementPattern := {}
  piercingHits : ℤ := 0
  charge : ChargeSpec := {}
deriving DecidableEq, Repr

/-- Archetype definition. -/
structure Archetype where
  name : String := ""
  respawnable : Bool := false
  health : ℤ := 0
  collision : Bool := false
  hitbox : HitboxDef := {}
  speed : ℚ := 0
  lookDirection : Vec2 := {}
  target : List String := []
  range : ℚ := 0
  weaponName : String := ""
  pattern : MovementPattern := {}
  faction : ℤ := 0
  colliderLayer : ℕ := 0
  colliderMask : ℕ := 0
  colliderSolid : Bool := false
  colliderTrigger : Bool := true
  colliderStatic : Bool := false
  targetOrder : List String := []
  targetMode : List (String × String) := []
  thornsEnabled : Bool := false
  thornsDamage : ℤ := 0
deriving DecidableEq, Repr

/-- Optional rectangular bounds. -/
structure Bounds where
  minX : ℚ := 0
  minY : ℚ := 0
  maxX : ℚ := 0
  maxY : ℚ := 0
  enabled : Bool := false
deriving DecidableEq, Repr

/-- The aggregated game configuration (maps used only through `find`). -/
structure GameConfig where
  projectiles : List (String × ProjectileDef) := []
  weapons : List (String × WeaponDef) := []
  archetypes : List (String × Archetype) := []
  worldBounds : Bounds := {}
  playableBounds : Bounds := {}
deriving DecidableEq, Repr

/-- `unordered_map::find`. -/
def mfind (m : List (String × α)) (k : String) : Option α :=
  (m.find? (fun p => p.1 == k)).map Prod.snd

/-- Reference to a weapon definition plus the per-entity weapon state. -/
structure WeaponRef where
  wdef : Option WeaponDef := none
  cooldown : QInf := some 0
  timer : QInf := some 0
  isCharging : Bool := false
  chargeTimeAccum : ℚ := 0
  chargeLevel : ℕ := 0
deriving DecidableEq, Repr

/-- Reference to the archetype an entity was spawned from (`nullptr` = none). -/
structure ArchetypeRef where
  adef : Option Archetype := none
deriving DecidableEq, Repr

/-! ## Engine state: registry bookkeeping plus one sparse array per
registered component type -/

structure EngineState where
  reg : RegState
  positions : List (Option Position)
  velocities : List (Option Velocity)
  speeds : List (Option Speed)
  looks : List (Option LookDirection)
  healths : List (Option Health)
  hitboxes : List (Option Hitbox)
  colliders : List (Option Collider)
  factions : List (Option Faction)
  pendings : List (Option PendingDamage)
  piercings : List (Option Piercing)
  targetLists : List (Option TargetList)
  ranges : List (Option Range)
  respawnables : List (Option Respawnable)
  lifetimes : List (Option Lifetime)
  damages : List (Option Damage)
  patterns : List (Option MovementPatternComp)
  inputs : List (Option InputState)
  weapons : List (Option WeaponRef)
  desireds : List (Option DesiredPosition)
  thorns : List (Option Thorns)
  archRefs : List (Option ArchetypeRef)
deriving DecidableEq, Repr

/-- The engine state right after construction: empty registry, empty stores. -/
def EngineState.empty : EngineState :=
  ⟨RegState.fresh, [], [], [], [], [], [], [], [], [], [], [], [], [], [], [],
   [], [], [], [], [], []⟩

/-- `registry::spawn_entity` inside the engine. -/
def spawnEntity (st : EngineState) : EngineState × ℕ :=
  let p := st.reg.spawnEntity
  ({ st with reg := p.1 }, p.2)

/-- `registry::kill_entity`: no-op on a dead or out-of-range index, otherwise
run every registered component type's eraser and recycle the index. -/
def killEntity (st : EngineState) (id : ℕ) : EngineState :=
  if st.reg.aliveAt id then
    { reg := ⟨st.reg.alive.set id false, id :: st.reg.freeIds⟩,
      positions := serase st.positions id,
      velocities := serase st.velocities id,
      speeds := serase st.speeds id,
      looks := serase st.looks id,
      healths := serase st.healths id,
      hitboxes := serase st.hitboxes id,
      colliders := serase st.colliders id,
      factions := serase st.factions id,
      pendings := serase st.pendings id,
      piercings := serase st.piercings id,
      targetLists := serase st.targetLists id,
      ranges := serase st.ranges id,
      respawnables := serase st.respawnables id,
      lifetimes := serase st.lifetimes id,
      damages := serase st.damages id,
      patterns := serase st.patterns id,
      inputs := serase st.inputs id,
      weapons := serase st.weapons id,
      desireds := serase st.desireds id,
      thorns := serase st.thorns id,
      archRefs := serase st.archRefs id }
  else st

/-- `Engine::spawn`: build an entity from an archetype.  Errors mirror the two
`std::invalid_argument` throws, identifying the missing name. -/
def spawn (cfg : GameConfig) (st : EngineState) (archetypeName : String)
    (x y : ℚ) : Except String (EngineState × ℕ) :=
  match mfind cfg.archetypes archetypeName with
  | none => Except.error ("Unknown archetype: " ++ archetypeName)
  | some arch =>
    let p := spawnEntity st
    let ent := p.2
    let st := p.1
    let st := { st with positions := sset st.positions ent ⟨x, y⟩ }
    let st := { st with velocities := sset st.velocities ent ⟨0, 0⟩ }
    let st := { st with speeds := sset st.speeds ent ⟨arch.speed⟩ }
    let st := { st with looks := (sset st.looks ent
      ⟨arch.lookDirection.x, arch.lookDirection.y⟩) }
    let st := { st with healths := sset st.healths ent ⟨arch.health⟩ }
    let st := { st with hitboxes := (sset st.hitboxes ent
      ⟨arch.hitbox.width * (1/2), arch.hitbox.height * (1/2),
       arch.hitbox.offsetX, arch.hitbox.offsetY⟩) }
    let st := { st with colliders := (sset st.colliders ent
      ⟨arch.colliderLayer, arch.colliderMask, arch.colliderSolid,
       arch.colliderTrigger, arch.colliderStatic⟩) }
    let st := { st with factions := sset st.factions ent ⟨arch.faction⟩ }
    let st := { st with targetLists := (sset st.targetLists ent
      ⟨arch.targetOrder, arch.targetMode⟩) }
    let st := { st with ranges := sset st.ranges ent ⟨arch.range⟩ }
    let st := { st with respawnables := sset st.respawnables ent ⟨arch.respawnable⟩ }
    let st := { st with patterns := sset st.patterns ent ⟨arch.pattern.offsets, 0⟩ }
    let st := { st with archRefs := sset st.archRefs ent ⟨some arch⟩ }
    let st := { st with inputs := sset st.inputs ent ⟨0, 0, false, false, false⟩ }
    if arch.weaponName = "" then
      let st :=
        if arch.thornsEnabled || decide (0 < arch.thornsDamage) then
          { st with thorns := sset st.thorns ent ⟨arch.thornsDamage, arch.thornsEnabled⟩ }
        else st
      Except.ok (st, ent)
    else
      match mfind cfg.weapons arch.weaponName with
      | none =>
          Except.error ("Archetype references unknown weapon: " ++ arch.weaponName)
      | some wdef =>
          let cooldown : QInf := if 0 < wdef.rate then some (1 / wdef.rate) else none
          let st := { st with weapons := (sset st.weapons ent
            ⟨some wdef, cooldown, some 0, false, 0, 0⟩) }
          let st :=
            if arch.thornsEnabled || decide (0 < arch.thornsDamage) then
              { st with thorns := sset st.thorns ent ⟨arch.thornsDamage, arch.thornsEnabled⟩ }
            else st
          Except.ok (st, ent)

/-! ## The six registered systems, in registration order -/

/-- System 1 body — for one zip index with all of `InputState`, `Velocity`
and `Speed` present: `vel = (moveX * speed, moveY * speed)` (componentwise; no
normalization in the source). -/
def inputVelBody (s : EngineState) (i : ℕ) : EngineState :=
  match sget s.inputs i, sget s.velocities i, sget s.speeds i with
  | some inp, some _, some spd =>
      { s with velocities := (sset s.velocities i
          ⟨inp.moveX * spd.value, inp.moveY * spd.value⟩) }
  | _, _, _ => s

/-- System 1 — input → velocity, iterating `ecs::zip(inputs, vels, speeds)`
up to the largest store length. -/
def inputVelocitySystem (st : EngineState) : EngineState :=
  (List.range (max st.inputs.length (max st.velocities.length st.speeds.length))).foldl
    inputVelBody st

/-- System 2 body — integrate one entity's velocity into `DesiredPosition`. -/
def integrateBody (dt : ℚ) (s : EngineState) (i : ℕ) : EngineState :=
  match sget s.positions i, sget s.velocities i with
  | some pos, some vel =>
      { s with desireds := (sset s.desireds i
          ⟨pos.x + vel.x * dt, pos.y + vel.y * dt⟩) }
  | _, _ => s

/-- System 2 — integrate velocity into `DesiredPosition`. -/
def integrateSystem (dt : ℚ) (st : EngineState) : EngineState :=
  (List.range st.positions.length).foldl (integrateBody dt) st

/-- The charge-level scan: highest threshold index not exceeding the
accumulated charge time (`level` loop in the weapon system). -/
def chargeLevelOf (thresholds : List ℚ) (acc : ℚ) : ℕ :=
  (List.range thresholds.length).foldl
    (fun lv j => if thresholds.getD j 0 ≤ acc then j else lv) 0

/-- System 3 body — weapon charge state machine and projectile creation for
one entity index. -/
def weaponTick (w0 : WeaponRef) (inp : InputState) (dt : ℚ) : WeaponRef :=
  let w1 := if qinfPos w0.timer then { w0 with timer := qinfSub w0.timer dt } else w0
  let w2 := if inp.firePressed then
      { w1 with isCharging := true, chargeTimeAccum := 0 } else w1
  if inp.fireHeld && w2.isCharging then
    let maxT := match w2.wdef with
      | some d => d.charge.maxTime
      | none => 0
    let acc := w2.chargeTimeAccum + dt
    { w2 with chargeTimeAccum := if maxT < acc then maxT else acc }
  else w2

/-- System 3 body, continued: the timer/charging updates above feed the
firing decision and projectile creation. -/
def weaponBody (cfg : GameConfig) (dt : ℚ) (s : EngineState) (i : ℕ) : EngineState :=
  match sget s.weapons i, sget s.inputs i, sget s.positions i, sget s.looks i with
  | some w0, some inp, some pos, some look =>
    let w3 := weaponTick w0 inp dt
    let res :=
      match w3.wdef with
      | some wd =>
        if inp.fireReleased && w3.isCharging && qinfNonpos w3.timer then
          let level0 := chargeLevelOf wd.charge.thresholds w3.chargeTimeAccum
          let level :=
            if wd.charge.levels ≠ [] ∧ wd.charge.levels.length ≤ level0 then
              wd.charge.levels.length - 1
            else level0
          let w4 := { w3 with chargeLevel := level }
          let len := ratSqrt (look.x * look.x + look.y * look.y)
          let dx := if 0 < len then look.x / len else 1
          let dy := if 0 < len then look.y / len else 0
          let s1 :=
            match mfind cfg.projectiles wd.projectileName with
            | none => s
            | some pdef =>
              let sp := spawnEntity s
              let proj := sp.2
              let s := sp.1
              let s := { s with positions := sset s.positions proj ⟨pos.x, pos.y⟩ }
              let hasLevel := decide (level < wd.charge.levels.length)
              let lev := wd.charge.levels.getD level {}
              let finalDamage : ℤ :=
                if hasLevel then cround ((wd.damage : ℚ) * lev.damageMul) else wd.damage
              let finalSpeed := if hasLevel then wd.speed * lev.speedMul else wd.speed
              let sizeMul := if hasLevel then lev.sizeMul else 1
              let finalPierce : ℤ :=
                if hasLevel then wd.piercingHits + lev.piercingHits else wd.piercingHits
              let s := { s with velocities := (sset s.velocities proj
                ⟨dx * finalSpeed, dy * finalSpeed⟩) }
              let s := { s with lifetimes := sset s.lifetimes proj ⟨wd.lifetime⟩ }
              let s := { s with damages := sset s.damages proj ⟨finalDamage⟩ }
              let s := { s with hitboxes := (sset s.hitboxes proj
                ⟨pdef.width * (1/2) * sizeMul, pdef.height * (1/2) * sizeMul, 0, 0⟩) }
              let s := { s with respawnables := sset s.respawnables proj ⟨false⟩ }
              let factionId : ℤ :=
                match sget s.factions i with
                | some f => f.id
                | none => 0
              let layer : ℕ := if factionId = 0 then 4 else 8
              let mask : ℕ := if factionId = 0 then 2 else 1
              let s := { s with colliders := (sset s.colliders proj
                ⟨layer, mask, false, true, false⟩) }
              let s := { s with factions := sset s.factions proj ⟨factionId⟩ }
              { s with piercings := sset s.piercings proj ⟨finalPierce, []⟩ }
          let w5 := { w4 with isCharging := false, chargeTimeAccum := 0, timer := w4.cooldown }
          (s1, w5)
        else (s, w3)
      | none => (s, w3)
    let s := res.1
    let w := res.2
    let s := { s with weapons := sset s.weapons i w }
    { s with inputs := (sset s.inputs i
        { inp with firePressed := false, fireReleased := false }) }
  | _, _, _, _ => s

/-- System 3 — weapon/charge state machine. -/
def weaponSystem (cfg : GameConfig) (dt : ℚ) (st : EngineState) : EngineState :=
  (List.range st.weapons.length).foldl (weaponBody cfg dt) st

/-- System 4 body — lifetime countdown for one entity. -/
def lifetimeBody (dt : ℚ) (s : EngineState) (i : ℕ) : EngineState :=
  match sget s.lifetimes i with
  | some l => { s with lifetimes := sset s.lifetimes i ⟨l.remaining - dt⟩ }
  | none => s

/-- System 4 — lifetime countdown. -/
def lifetimeSystem (dt : ℚ) (st : EngineState) : EngineState :=
  (List.range st.lifetimes.length).foldl (lifetimeBody dt) st

/-- System 5 body — movement pattern for one entity index. -/
def movementBody (dt : ℚ) (s : EngineState) (i : ℕ) : EngineState :=
  match sget s.patterns i, sget s.positions i with
  | some pat, some pos =>
    if pat.offsets = [] then s
    else
      let off := pat.offsets.getD pat.index (0, 0)
      let dx := off.1 * dt
      let dy := off.2 * dt
      let s :=
        match sget s.desireds i with
        | some des => { s with desireds := sset s.desireds i ⟨des.x + dx, des.y + dy⟩ }
        | none => { s with desireds := sset s.desireds i ⟨pos.x + dx, pos.y + dy⟩ }
      let newIndex := if pat.offsets.length ≤ pat.index + 1 then 0 else pat.index + 1
      { s with patterns := sset s.patterns i ⟨pat.offsets, newIndex⟩ }
  | _, _ => s

/-- System 5 — movement patterns. -/
def movementSystem (dt : ℚ) (st : EngineState) : EngineState :=
  (List.range st.patterns.length).foldl (movementBody dt) st

/-- One category scan of the AI: walk candidate indices; in priority mode the
first match wins (the loop breaks), in closest mode keep the closest (ties to
the smaller index).  The accumulator starts at `(npos, FLT_MAX)`. -/
def aiScanCat (s : EngineState) (idx : ℕ) (myFaction : ℤ) (cat : String)
    (myPos : Position) (maxDistSq : ℚ) (useClosest : Bool) :
    List ℕ → ℕ × ℚ → ℕ × ℚ
  | [], acc => acc
  | j :: rest, acc =>
    if j = idx then aiScanCat s idx myFaction cat myPos maxDistSq useClosest rest acc
    else
      match sget s.positions j, sget s.factions j, sget s.archRefs j with
      | some oPos, some oFac, some oArch =>
        if oFac.id = myFaction then
          aiScanCat s idx myFaction cat myPos maxDistSq useClosest rest acc
        else
          match oArch.adef with
          | none => aiScanCat s idx myFaction cat myPos maxDistSq useClosest rest acc
          | some adef =>
            if adef.name ≠ cat then
              aiScanCat s idx myFaction cat myPos maxDistSq useClosest rest acc
            else
              let dx := oPos.x - myPos.x
              let dy := oPos.y - myPos.y
              let distSq := dx * dx + dy * dy
              if maxDistSq < distSq then
                aiScanCat s idx myFaction cat myPos maxDistSq useClosest rest acc
              else if useClosest then
                let acc' :=
                  if distSq < acc.2 ∨ (distSq = acc.2 ∧ j < acc.1) then (j, distSq) else acc
                aiScanCat s idx myFaction cat myPos maxDistSq useClosest rest acc'
              else (j, distSq)
      | _, _, _ => aiScanCat s idx myFaction cat myPos maxDistSq useClosest rest acc

/-- The AI category-priority loop: first category with a candidate wins. -/
def aiFindTarget (s : EngineState) (idx : ℕ) (myFaction : ℤ) (myPos : Position)
    (maxDistSq : ℚ) (modes : List (String × String)) (total : ℕ) :
    List String → Option ℕ
  | [] => none
  | cat :: rest =>
    let useClosest :=
      match mfind modes cat with
      | some m => m == "closest_in_class" || m == "closest"
      | none => false
    let res := aiScanCat s idx myFaction cat myPos maxDistSq useClosest
      (List.range total) (npos, floatMax)
    if res.1 ≠ npos then some res.1
    else aiFindTarget s idx myFaction myPos maxDistSq modes total rest

/-- The AI fallback when no category list is configured: closest enemy of any
other faction (ties to the smaller index). -/
def aiClosestEnemy (s : EngineState) (idx : ℕ) (myFaction : ℤ) (myPos : Position)
    (maxDistSq : ℚ) : List ℕ → ℕ × ℚ → ℕ × ℚ
  | [], acc => acc
  | j :: rest, acc =>
    if j = idx then aiClosestEnemy s idx myFaction myPos maxDistSq rest acc
    else
      match sget s.positions j, sget s.factions j with
      | some oPos, some oFac =>
        if oFac.id = myFaction then aiClosestEnemy s idx myFaction myPos maxDistSq rest acc
        else
          let dx := oPos.x - myPos.x
          let dy := oPos.y - myPos.y
          let distSq := dx * dx + dy * dy
          if maxDistSq < distSq then aiClosestEnemy s idx myFaction myPos maxDistSq rest acc
          else
            let acc' :=
              if distSq < acc.2 ∨ (distSq = acc.2 ∧ j < acc.1) then (j, distSq) else acc
            aiClosestEnemy s idx myFaction myPos maxDistSq rest acc'
      | _, _ => aiClosestEnemy s idx myFaction myPos maxDistSq rest acc

/-- System 6 body — AI targeting for one entity index. -/
def aiBody (s : EngineState) (total : ℕ) (i : ℕ) : EngineState :=
  match sget s.weapons i, sget s.inputs i, sget s.positions i, sget s.looks i,
      sget s.factions i, sget s.ranges i, sget s.targetLists i with
  | some w, some inp, some pos, some _, some fac, some rng, some targ =>
    if fac.id = 0 then s
    else if qinfPos w.timer then s
    else
      let maxDistSq := rng.value * rng.value
      let chosen :=
        match aiFindTarget s i fac.id pos maxDistSq targ.modes total targ.names with
        | some c => some c
        | none =>
          if targ.names = [] then
            let res := aiClosestEnemy s i fac.id pos maxDistSq (List.range total)
              (npos, floatMax)
            if res.1 ≠ npos then some res.1 else none
          else none
      match chosen with
      | none => s
      | some t =>
        match sget s.positions t with
        | none => s
        | some tPos =>
          let dx0 := tPos.x - pos.x
          let dy0 := tPos.y - pos.y
          let len := ratSqrt (dx0 * dx0 + dy0 * dy0)
          let dx := if 0 < len then dx0 / len else 1
          let dy := if 0 < len then dy0 / len else 0
          let s := { s with looks := sset s.looks i ⟨dx, dy⟩ }
          { s with inputs := (sset s.inputs i
              { inp with firePressed := true, fireReleased := true, fireHeld := false }) }
  | _, _, _, _, _, _, _ => s

/-- System 6 — AI targeting. -/
def aiSystem (st : EngineState) : EngineState :=
  let total := st.positions.length
  (List.range st.weapons.length).foldl (fun s i => aiBody s total i) st

/-! ## Post-system resolution phases -/

/-- `velOpt->x = 0` when the velocity component exists. -/
def zeroVelX (s : EngineState) (i : ℕ) : EngineState :=
  match sget s.velocities i with
  | some v => { s with velocities := sset s.velocities i ⟨0, v.y⟩ }
  | none => s

/-- `velOpt->y = 0` when the velocity component exists. -/
def zeroVelY (s : EngineState) (i : ℕ) : EngineState :=
  match sget s.velocities i with
  | some v => { s with velocities := sset s.velocities i ⟨v.x, 0⟩ }
  | none => s

/-- X-axis inner loop of solid resolution for entity `i` against each other
solid `j` (skipped unless `j` is static or `i < j`). -/
def solidXInner (i : ℕ) (oldX oldY : ℚ) (hbA : Hitbox) (colA : Collider) :
    List ℕ → ℚ × EngineState → ℚ × EngineState
  | [], acc => acc
  | j :: rest, acc =>
    let resolvedX := acc.1
    let s := acc.2
    if i = j then solidXInner i oldX oldY hbA colA rest acc
    else
      match sget s.positions j, sget s.hitboxes j, sget s.colliders j with
      | some posB, some hbB, some colB =>
        if !colB.isSolid then solidXInner i oldX oldY hbA colA rest acc
        else if (colA.mask &&& colB.layer) = 0 ∧ (colB.mask &&& colA.layer) = 0 then
          solidXInner i oldX oldY hbA colA rest acc
        else if !(colB.isStatic || decide (i < j)) then
          solidXInner i oldX oldY hbA colA rest acc
        else
          let oldRightA := oldX + hbA.offsetX + hbA.halfWidth
          let oldLeftA := oldX + hbA.offsetX - hbA.halfWidth
          let newRightA := resolvedX + hbA.offsetX + hbA.halfWidth
          let newLeftA := resolvedX + hbA.offsetX - hbA.halfWidth
          let topA := oldY + hbA.offsetY - hbA.halfHeight
          let bottomA := oldY + hbA.offsetY + hbA.halfHeight
          let leftB := posB.x + hbB.offsetX - hbB.halfWidth
          let rightB := posB.x + hbB.offsetX + hbB.halfWidth
          let topB := posB.y + hbB.offsetY - hbB.halfHeight
          let bottomB := posB.y + hbB.offsetY + hbB.halfHeight
          if bottomB < topA ∨ bottomA < topB then
            solidXInner i oldX oldY hbA colA rest acc
          else
            let step1 :=
              if oldX < resolvedX ∧ leftB < newRightA ∧ oldRightA ≤ leftB then
                (leftB - hbA.offsetX - hbA.halfWidth, zeroVelX s i)
              else acc
            let step2 :=
              if step1.1 < oldX ∧ newLeftA < rightB ∧ rightB ≤ oldLeftA then
                (rightB - hbA.offsetX + hbA.halfWidth, zeroVelX step1.2 i)
              else step1
            solidXInner i oldX oldY hbA colA rest step2
      | _, _, _ => solidXInner i oldX oldY hbA colA rest acc

/-- X pass of solid resolution for entity `i`. -/
def solidXBody (count : ℕ) (s : EngineState) (i : ℕ) : EngineState :=
  match sget s.positions i, sget s.desireds i, sget s.hitboxes i, sget s.colliders i with
  | some pos, some des, some hbA, some colA =>
    if !colA.isSolid then s
    else
      let r := solidXInner i pos.x pos.y hbA colA (List.range count) (des.x, s)
      { r.2 with desireds := sset r.2.desireds i ⟨r.1, des.y⟩ }
  | _, _, _, _ => s

/-- Y-axis inner loop of solid resolution (uses the already X-resolved
horizontal extent `finalX`). -/
def solidYInner (i : ℕ) (oldY finalX : ℚ) (hbA : Hitbox) (colA : Collider) :
    List ℕ → ℚ × EngineState → ℚ × EngineState
  | [], acc => acc
  | j :: rest, acc =>
    let resolvedY := acc.1
    let s := acc.2
    if i = j then solidYInner i oldY finalX hbA colA rest acc
    else
      match sget s.positions j, sget s.hitboxes j, sget s.colliders j with
      | some posB, some hbB, some colB =>
        if !colB.isSolid then solidYInner i oldY finalX hbA colA rest acc
        else if (colA.mask &&& colB.layer) = 0 ∧ (colB.mask &&& colA.layer) = 0 then
          solidYInner i oldY finalX hbA colA rest acc
        else if !(colB.isStatic || decide (i < j)) then
          solidYInner i oldY finalX hbA colA rest acc
        else
          let oldBottomA := oldY + hbA.offsetY + hbA.halfHeight
          let oldTopA := oldY + hbA.offsetY - hbA.halfHeight
          let newBottomA := resolvedY + hbA.offsetY + hbA.halfHeight
          let newTopA := resolvedY + hbA.offsetY - hbA.halfHeight
          let leftA := finalX + hbA.offsetX - hbA.halfWidth
          let rightA := finalX + hbA.offsetX + hbA.halfWidth
          let leftB := posB.x + hbB.offsetX - hbB.halfWidth
          let rightB := posB.x + hbB.offsetX + hbB.halfWidth
          let topB := posB.y + hbB.offsetY - hbB.halfHeight
          let bottomB := posB.y + hbB.offsetY + hbB.halfHeight
          if rightB < leftA ∨ rightA < leftB then
            solidYInner i oldY finalX hbA colA rest acc
          else
            let step1 :=
              if oldY < resolvedY ∧ topB < newBottomA ∧ oldBottomA ≤ topB then
                (topB - hbA.offsetY - hbA.halfHeight, zeroVelY s i)
              else acc
            let step2 :=
              if step1.1 < oldY ∧ newTopA < bottomB ∧ bottomB ≤ oldTopA then
                (bottomB - hbA.offsetY + hbA.halfHeight, zeroVelY step1.2 i)
              else step1
            solidYInner i oldY finalX hbA colA rest step2
      | _, _, _ => solidYInner i oldY finalX hbA colA rest acc

/-- Y pass of solid resolution for entity `i`. -/
def solidYBody (count : ℕ) (s : EngineState) (i : ℕ) : EngineState :=
  match sget s.positions i, sget s.desireds i, sget s.hitboxes i, sget s.colliders i with
  | some pos, some des, some hbA, some colA =>
    if !colA.isSolid then s
    else
      let r := solidYInner i pos.y des.x hbA colA (List.range count) (des.y, s)
      let desNow :=
        match sget r.2.desireds i with
        | some d => d
        | none => des
      { r.2 with desireds := sset r.2.desireds i ⟨desNow.x, r.1⟩ }
  | _, _, _, _ => s

/-- `Engine::resolveSolidCollisions`: X pass over all entities, then Y pass. -/
def resolveSolidCollisions (st : EngineState) : EngineState :=
  let count := st.positions.length
  let st1 := (List.range count).foldl (solidXBody count) st
  (List.range count).foldl (solidYBody count) st1

/-- `Engine::enforcePlayableBoundsForPlayer` search loop: find the first
entity with faction 0 and archetype name "player", clamp it, stop. -/
def enforceLoop (cfg : GameConfig) (s : EngineState) : List ℕ → EngineState
  | [] => s
  | i :: rest =>
    match sget s.positions i, sget s.desireds i, sget s.factions i, sget s.archRefs i with
    | some _, some des, some fac, some arch =>
      if fac.id ≠ 0 then enforceLoop cfg s rest
      else
        match arch.adef with
        | none => enforceLoop cfg s rest
        | some adef =>
          if adef.name ≠ "player" then enforceLoop cfg s rest
          else
            let hb := sget s.hitboxes i
            let halfW := match hb with | some h => h.halfWidth | none => 0
            let halfH := match hb with | some h => h.halfHeight | none => 0
            let offX := match hb with | some h => h.offsetX | none => 0
            let offY := match hb with | some h => h.offsetY | none => 0
            let b := cfg.playableBounds
            let minX := b.minX + halfW - offX
            let maxX := b.maxX - halfW - offX
            let minY := b.minY + halfH - offY
            let maxY := b.maxY - halfH - offY
            let px := if des.x < minX then (minX, true)
              else if maxX < des.x then (maxX, true) else (des.x, false)
            let py := if des.y < minY then (minY, true)
              else if maxY < des.y then (maxY, true) else (des.y, false)
            let s1 := if px.2 then
                zeroVelX { s with desireds := sset s.desireds i ⟨px.1, des.y⟩ } i
              else s
            if py.2 then
              zeroVelY { s1 with desireds := sset s1.desireds i ⟨px.1, py.1⟩ } i
            else s1
    | _, _, _, _ => enforceLoop cfg s rest

/-- `Engine::enforcePlayableBoundsForPlayer`. -/
def enforcePlayableBoundsForPlayer (cfg : GameConfig) (st : EngineState) : EngineState :=
  if cfg.playableBounds.enabled then
    enforceLoop cfg st (List.range st.positions.length)
  else st

/-- `Engine::commitPositions` body for one entity. -/
def commitBody (s : EngineState) (i : ℕ) : EngineState :=
  match sget s.positions i, sget s.desireds i with
  | some _, some des => { s with positions := sset s.positions i ⟨des.x, des.y⟩ }
  | _, _ => s

/-- `Engine::commitPositions`: copy `DesiredPosition` into `Position`. -/
def commitPositions (st : EngineState) : EngineState :=
  (List.range st.positions.length).foldl commitBody st

/-- `Engine::cullOutsideWorldBounds`. -/
def cullOutsideWorldBounds (cfg : GameConfig) (st : EngineState) : EngineState :=
  if cfg.worldBounds.enabled then
    let b := cfg.worldBounds
    let toKill := (List.range st.positions.length).filter (fun i =>
      match sget st.positions i with
      | none => false
      | some pos =>
        match sget st.hitboxes i with
        | some hb =>
          decide (pos.x + hb.offsetX - hb.halfWidth < b.minX ∨
            b.maxX < pos.x + hb.offsetX + hb.halfWidth ∨
            pos.y + hb.offsetY - hb.halfHeight < b.minY ∨
            b.maxY < pos.y + hb.offsetY + hb.halfHeight)
        | none =>
          decide (pos.x < b.minX ∨ b.maxX < pos.x ∨ pos.y < b.minY ∨ b.maxY < pos.y))
    toKill.foldl killEntity st
  else st

/-- Entities owning position, hitbox and collider (collision candidates). -/
def entsOf (st : EngineState) : List ℕ :=
  (List.range st.positions.length).filter (fun i =>
    (sget st.positions i).isSome && (sget st.hitboxes i).isSome &&
      (sget st.colliders i).isSome)

/-- All unordered pairs of a list, first components earlier in the list
(matching the `a < b` double loop). -/
def allPairs : List ℕ → List (ℕ × ℕ)
  | [] => []
  | x :: xs => xs.map (fun y => (x, y)) ++ allPairs xs

/-- Accumulate damage into the target's `PendingDamage` (creating it with the
given source if absent). -/
def addPendingDamage (s : EngineState) (target : ℕ) (dmg : ℤ) (source : ℕ) :
    EngineState :=
  match sget s.pendings target with
  | none => { s with pendings := sset s.pendings target ⟨dmg, source⟩ }
  | some pd => { s with pendings := sset s.pendings target ⟨pd.amount + dmg, pd.source⟩ }

/-- Thorns accrual for one ordered side of a touching pair: if the source
carries enabled, positive `Thorns`, add its damage to the destination's
pending damage. -/
def thornsHit (s : EngineState) (src dst : ℕ) : EngineState :=
  match sget s.thorns src with
  | some th => if th.enabled && decide (0 < th.damage) then
      addPendingDamage s dst th.damage src else s
  | none => s

/-- `Engine::handleCollisions` body for one pair: thorns accrual, solid-solid
skip, projectile damage with the piercing hit-set, kill marking. -/
def collidePair (acc : EngineState × List ℕ) (p : ℕ × ℕ) : EngineState × List ℕ :=
  let s := acc.1
  let toKill := acc.2
  let ia := p.1
  let ib := p.2
  match sget s.positions ia, sget s.positions ib with
  | some posA, some posB =>
    match sget s.hitboxes ia, sget s.hitboxes ib,
        sget s.colliders ia, sget s.colliders ib with
    | some hbA, some hbB, some colA, some colB =>
      let leftA := posA.x + hbA.offsetX - hbA.halfWidth
      let rightA := posA.x + hbA.offsetX + hbA.halfWidth
      let topA := posA.y + hbA.offsetY - hbA.halfHeight
      let bottomA := posA.y + hbA.offsetY + hbA.halfHeight
      let leftB := posB.x + hbB.offsetX - hbB.halfWidth
      let rightB := posB.x + hbB.offsetX + hbB.halfWidth
      let topB := posB.y + hbB.offsetY - hbB.halfHeight
      let bottomB := posB.y + hbB.offsetY + hbB.halfHeight
      if rightB < leftA ∨ rightA < leftB ∨ bottomB < topA ∨ bottomA < topB then acc
      else if (colA.mask &&& colB.layer) = 0 ∧ (colB.mask &&& colA.layer) = 0 then acc
      else
        let s := thornsHit s ia ib
        let s := thornsHit s ib ia
        if !colA.isTrigger && !colB.isTrigger then (s, toKill)
        else
          let aProj := (sget s.damages ia).isSome
          let bProj := (sget s.damages ib).isSome
          if aProj = bProj then (s, toKill)
          else
            let proj := if aProj then ia else ib
            let target := if aProj then ib else ia
            let hostile : Bool :=
              match sget s.factions proj, sget s.factions target with
              | some fp, some ft => decide (fp.id ≠ ft.id)
              | _, _ => true
            if hostile then
              let dmg : ℤ :=
                match sget s.damages proj with
                | some d => d.value
                | none => 0
              match sget s.piercings proj with
              | some pc =>
                if target ∈ pc.hitEntities then (s, toKill)
                else
                  let s := addPendingDamage s target dmg proj
                  let s := { s with piercings := (sset s.piercings proj
                    ⟨pc.remainingHits - 1, target :: pc.hitEntities⟩) }
                  if pc.remainingHits - 1 ≤ 0 then (s, toKill ++ [proj]) else (s, toKill)
              | none =>
                let s := addPendingDamage s target dmg proj
                (s, toKill ++ [proj])
            else (s, toKill)
    | _, _, _, _ => acc
  | _, _ => acc

/-- `Engine::handleCollisions`: every unordered pair once, then deferred
kills. -/
def handleCollisions (st : EngineState) : EngineState :=
  let res := (allPairs (entsOf st)).foldl collidePair (st, [])
  res.2.foldl killEntity res.1

/-- `Engine::applyDamage`: subtract accumulated damage from health, mark for
destruction at zero or below, erase the `PendingDamage`; kills are deferred. -/
def applyDamageBody (acc : EngineState × List ℕ) (i : ℕ) : EngineState × List ℕ :=
  let s := acc.1
  match sget s.pendings i with
  | none => acc
  | some pd =>
    let p2 :=
      match sget s.healths i with
      | some h =>
        let newh := h.value - pd.amount
        ({ s with healths := sset s.healths i ⟨newh⟩ },
         if newh ≤ 0 then acc.2 ++ [i] else acc.2)
      | none => (s, acc.2)
    ({ p2.1 with pendings := serase p2.1.pendings i }, p2.2)

def applyDamage (st : EngineState) : EngineState :=
  let res := (List.range st.pendings.length).foldl applyDamageBody (st, [])
  res.2.foldl killEntity res.1

/-- The trailing loop of `Engine::update`: kill lifetime-expired entities
immediately while iterating. -/
def expiryBody (s : EngineState) (i : ℕ) : EngineState :=
  match sget s.lifetimes i with
  | some l => if l.remaining ≤ 0 then killEntity s i else s
  | none => s

def lifetimeExpiry (st : EngineState) : EngineState :=
  (List.range st.lifetimes.length).foldl expiryBody st

/-- Does an `Engine::spawn` call raise (`Except.error` models the two
`std::invalid_argument` throws)? -/
def spawnRaises (r : Except String (EngineState × ℕ)) : Bool :=
  match r with
  | Except.error _ => true
  | Except.ok _ => false

/-- `Engine::update(dt)`: the six systems in registration order, then the
resolution phases. -/
def update (cfg : GameConfig) (dt : ℚ) (st : EngineState) : EngineState :=
  lifetimeExpiry
    (applyDamage
      (handleCollisions
        (cullOutsideWorldBounds cfg
          (commitPositions
            (enforcePlayableBoundsForPlayer cfg
              (resolveSolidCollisions
                (aiSystem
                  (movementSystem dt
                    (lifetimeSystem dt
                      (weaponSystem cfg dt
                        (integrateSystem dt
                          (inputVelocitySystem st))))))))))))

/-! ## C7: the spawn failure surface -/

/-- Reduction: spawning an unknown archetype raises the identifying error. -/
theorem spawn_arch_missing (cfg : GameConfig) (st : EngineState)
    (archetypeName : String) (x y : ℚ)
    (h : mfind cfg.archetypes archetypeName = none) :
    spawn cfg st archetypeName x y
      = Except.error ("Unknown archetype: " ++ archetypeName) := by
  unfold spawn
  rw [h]

/-- Reduction: an archetype referencing an unknown weapon raises the
identifying error. -/
theorem spawn_weapon_missing (cfg : GameConfig) (st : EngineState)
    (archetypeName : String) (x y : ℚ) (arch : Archetype)
    (h : mfind cfg.archetypes archetypeName = some arch)
    (hw : arch.weaponName ≠ "")
    (hwf : mfind cfg.weapons arch.weaponName = none) :
    spawn cfg st archetypeName x y
      = Except.error ("Archetype references unknown weapon: " ++ arch.weaponName) := by
  simp only [spawn, h]
  rw [if_neg hw, hwf]

/-- Reduction: spawning a weaponless archetype succeeds. -/
theorem spawnRaises_ok_noweapon (cfg : GameConfig) (st : EngineState)
    (archetypeName : String) (x y : ℚ) (arch : Archetype)
    (h : mfind cfg.archetypes archetypeName = some arch)
    (hw : arch.weaponName = "") :
    spawnRaises (spawn cfg st archetypeName x y) = false := by
  simp only [spawn, h]
  rw [if_pos hw]
  rfl

/-- Reduction: spawning an archetype whose weapon exists succeeds. -/
theorem spawnRaises_ok_weapon (cfg : GameConfig) (st : EngineState)
    (archetypeName : String) (x y : ℚ) (arch : Archetype) (wdef : WeaponDef)
    (h : mfind cfg.archetypes archetypeName = some arch)
    (hw : arch.weaponName ≠ "")
    (hwf : mfind cfg.weapons arch.weaponName = some wdef) :
    spawnRaises (spawn cfg st archetypeName x y) = false := by
  simp only [spawn, h]
  rw [if_neg hw, hwf]
  rfl

/-- C7: `Engine::spawn` raises exactly when the archetype name is absent from
the configuration, or the archetype references a non-empty weapon name absent
from the weapon table; the error identifies the missing name.  (All other
public operations are total functions of the state: `update` raises
nothing.) -/
theorem spawn_raises_iff (cfg : GameConfig) (st : EngineState)
    (archetypeName : String) (x y : ℚ) :
    (spawnRaises (spawn cfg st archetypeName x y) = true ↔
      (mfind cfg.archetypes archetypeName = none ∨
        ∃ arch, mfind cfg.archetypes archetypeName = some arch ∧
          arch.weaponName ≠ "" ∧ mfind cfg.weapons arch.weaponName = none)) ∧
    (mfind cfg.archetypes archetypeName = none →
      spawn cfg st archetypeName x y
        = Except.error ("Unknown archetype: " ++ archetypeName)) ∧
    (∀ arch, mfind cfg.archetypes archetypeName = some arch →
      arch.weaponName ≠ "" → mfind cfg.weapons arch.weaponName = none →
      spawn cfg st archetypeName x y
        = Except.error ("Archetype references unknown weapon: " ++ arch.weaponName)) := by
  refine ⟨?_, spawn_arch_missing cfg st archetypeName x y,
    fun arch h hw hwf => spawn_weapon_missing cfg st archetypeName x y arch h hw hwf⟩
  cases harch : mfind cfg.archetypes archetypeName with
  | none =>
      rw [spawn_arch_missing cfg st archetypeName x y harch]
      simp only [spawnRaises, true_iff]
      exact Or.inl trivial
  | some arch =>
      by_cases hwn : arch.weaponName = ""
      · rw [spawnRaises_ok_noweapon cfg st archetypeName x y arch harch hwn]
        constructor
        · intro h
          exact absurd h (by simp)
        · rintro (h | ⟨arch2, ha2, hw2, -⟩)
          · exact absurd h (by simp)
          · obtain rfl := Option.some_inj.mp ha2
            exact absurd hwn hw2
      · cases hwf : mfind cfg.weapons arch.weaponName with
        | none =>
            rw [spawn_weapon_missing cfg st archetypeName x y arch harch hwn hwf]
            simp only [spawnRaises, true_iff]
            exact Or.inr ⟨arch, rfl, hwn, hwf⟩
        | some wdef =>
            rw [spawnRaises_ok_weapon cfg st archetypeName x y arch wdef harch hwn hwf]
            constructor
            · intro h
              exact absurd h (by simp)
            · rintro (h | ⟨arch2, ha2, -, hw2⟩)
              · exact absurd h (by simp)
              · obtain rfl := Option.some_inj.mp ha2
                rw [hwf] at hw2
                exact absurd hw2 (by simp)

/-- Closed witness for `spawn_raises_iff`: one failing and one succeeding
spawn against a one-archetype configuration. -/
theorem spawn_raises_iff_witness :
    spawnRaises (spawn { archetypes := [("a", {})] } EngineState.empty "b" 0 0)
      = true ∧
    spawnRaises (spawn { archetypes := [("a", {})] } EngineState.empty "a" 0 0)
      = false := by
  have h1 := spawn_raises_iff { archetypes := [("a", {})] } EngineState.empty "b" 0 0
  have h2 := spawn_raises_iff { archetypes := [("a", {})] } EngineState.empty "a" 0 0
  constructor
  · exact h1.1.mpr (Or.inl (by with_unfolding_all decide))
  · have hr : ¬(mfind ({ archetypes := [("a", {})] } : GameConfig).archetypes "a" = none ∨
        ∃ arch, mfind ({ archetypes := [("a", {})] } : GameConfig).archetypes "a" = some arch ∧
          arch.weaponName ≠ "" ∧
          mfind ({ archetypes := [("a", {})] } : GameConfig).weapons arch.weaponName = none) := by
      rintro (h | ⟨arch, ha, hw, -⟩)
      · exact absurd h (by with_unfolding_all decide)
      · have harch : arch = ({} : Archetype) := by
          have : mfind ({ archetypes := [("a", {})] } : GameConfig).archetypes "a"
              = some ({} : Archetype) := by
            with_unfolding_all decide
          rw [this] at ha
          cases ha
          rfl
        subst harch
        exact hw rfl
    by_cases hval : spawnRaises (spawn { archetypes := [("a", {})] } EngineState.empty "a" 0 0) = true
    · exact absurd (h2.1.mp hval) hr
    · simpa using hval

/-! ## C1: the turret/drone scenario -/

/-- The turret's weapon for the C1 scenario. -/
def turretWeapon : WeaponDef :=
  { name := "gun", rate := 1, speed := 5, lifetime := 5, damage := 7,
    projectileName := "bolt" }

/-- Archetype "turret": Health 50, a weapon, no target list, Range 100 (and a
non-player faction so the AI system considers it). -/
def turretArchetype : Archetype :=
  { name := "turret", health := 50, range := 100, weaponName := "gun",
    faction := 2 }

/-- Archetype "drone": Faction 1. -/
def droneArchetype : Archetype :=
  { name := "drone", faction := 1 }

/-- The C1 configuration. -/
def turretConfig : GameConfig :=
  { projectiles := [("bolt", {})],
    weapons := [("gun", turretWeapon)],
    archetypes := [("turret", turretArchetype), ("drone", droneArchetype)] }

/-- Spawn with a fallback (used only to build concrete scenario states; the
accompanying theorems check that the spawns actually succeeded). -/
def spawnD (cfg : GameConfig) (st : EngineState) (archetypeName : String)
    (x y : ℚ) : EngineState :=
  match spawn cfg st archetypeName x y with
  | Except.ok p => p.1
  | Except.error _ => st

/-- The C1 initial state: turret at the origin, drone 10 units away. -/
def turretState0 : EngineState :=
  spawnD turretConfig (spawnD turretConfig EngineState.empty "turret" 0 0)
    "drone" 10 0

/-- The C1 state after one `update(1)`. -/
def turretState1 : EngineState := update turretConfig 1 turretState0

/-- The C1 state after a second `update(1)`. -/
def turretState2 : EngineState := update turretConfig 1 turretState1

/-- Projectiles are the entities carrying a `Damage` component (the
discriminator `handleCollisions` itself uses). -/
def projectileIndices (st : EngineState) : List ℕ :=
  (List.range st.damages.length).filter (fun i => (sget st.damages i).isSome)

/-- C1 (counterexample): in the turret/drone scenario both spawns succeed and,
after ONE `update`, the turret's LookDirection already points toward the drone
(`(1, 0)` is the unit vector from the turret at `(0,0)` to the drone at
`(10,0)`), but no projectile entity exists at all — the AI synthesizes the
fire press/release pair *after* the weapon system already ran this tick, so
the claim that a projectile exists with the turret's position after one
update is false. -/
theorem turret_one_update_no_projectile :
    spawnRaises (spawn turretConfig EngineState.empty "turret" 0 0) = false ∧
    sget turretState1.looks 0 = some ⟨1, 0⟩ ∧
    projectileIndices turretState1 = [] := by
  with_unfolding_all decide

/-- C1 (amended): after one `update` the turret's LookDirection points toward
the drone and the synthesized fire press/release flags are set but no
projectile exists yet; after the second `update` exactly one projectile entity
exists and its Position equals the turret's Position `(0,0)` (the turret has
not moved). -/
theorem turret_second_update_fires :
    sget turretState1.looks 0 = some ⟨1, 0⟩ ∧
    (sget turretState1.inputs 0).map (fun inp => (inp.firePressed, inp.fireReleased))
      = some (true, true) ∧
    projectileIndices turretState1 = [] ∧
    projectileIndices turretState2 = [2] ∧
    sget turretState2.positions 2 = some ⟨0, 0⟩ ∧
    sget turretState2.positions 0 = some ⟨0, 0⟩ ∧
    sget turretState2.looks 0 = some ⟨1, 0⟩ := by
  with_unfolding_all decide

/-! ## C8: two simultaneous damage sources -/

/-- The C8 state: entity 0 (the victim, Health 100, faction 1) overlaps both
entity 1 (a thorny body, Thorns 3, faction 1) and entity 2 (a hostile
projectile, Damage 7, Piercing 5, faction 2) in the same tick.  The
thorny-vs-projectile pair fails the layer/mask check, so exactly two damage
sources hit the victim. -/
def c8State : EngineState where
  reg := ⟨[true, true, true], []⟩
  positions := [some ⟨0, 0⟩, some ⟨1/2, 0⟩, some ⟨-1/2, 0⟩]
  velocities := [none, none, none]
  speeds := [none, none, none]
  looks := [none, none, none]
  healths := [some ⟨100⟩, none, none]
  hitboxes := [some {}, some {}, some {}]
  colliders := [some ⟨1, 0, false, true, false⟩, some ⟨0, 1, false, true, false⟩,
    some ⟨8, 1, false, true, false⟩]
  factions := [some ⟨1⟩, some ⟨1⟩, some ⟨2⟩]
  pendings := [none, none, none]
  piercings := [none, none, some ⟨5, []⟩]
  targetLists := [none, none, none]
  ranges := [none, none, none]
  respawnables := [none, none, none]
  lifetimes := [none, none, none]
  damages := [none, none, some ⟨7⟩]
  patterns := [none, none, none]
  inputs := [none, none, none]
  weapons := [none, none, none]
  desireds := [none, none, none]
  thorns := [none, some ⟨3, true⟩, none]
  archRefs := [none, none, none]

/-- C8: with a Thorns contact (3) and a projectile hit (7) landing on the same
entity in one tick, both amounts accumulate additively into its single
`PendingDamage`; `applyDamage` then decrements Health exactly once by the
summed amount and erases the `PendingDamage`; on this state the whole
`update(1)` consists of exactly these two phases.  The last conjunct states
additive accumulation of `addPendingDamage` in general. -/
theorem thorns_and_projectile_sum_before_health :
    sget (handleCollisions c8State).pendings 0 = some ⟨3 + 7, 1⟩ ∧
    sget (applyDamage (handleCollisions c8State)).healths 0 = some ⟨100 - (3 + 7)⟩ ∧
    sget (applyDamage (handleCollisions c8State)).pendings 0 = none ∧
    update ({} : GameConfig) 1 c8State = applyDamage (handleCollisions c8State) ∧
    (∀ (s : EngineState) (target : ℕ) (dmg : ℤ) (src : ℕ) (pd : PendingDamage),
      sget s.pendings target = some pd →
      sget (addPendingDamage s target dmg src).pendings target
        = some ⟨pd.amount + dmg, pd.source⟩) := by
  refine ⟨by with_unfolding_all decide, by with_unfolding_all decide,
    by with_unfolding_all decide, by with_unfolding_all decide, ?_⟩
  intro s target dmg src pd h
  unfold addPendingDamage
  rw [h]
  exact sget_sset_self s.pendings target ⟨pd.amount + dmg, pd.source⟩

/-- Closed witness for `thorns_and_projectile_sum_before_health`: the general
accumulation conjunct applied at a concrete state. -/
theorem thorns_and_projectile_sum_before_health_witness :
    sget (addPendingDamage (handleCollisions c8State) 0 5 1).pendings 0
      = some ⟨(3 + 7) + 5, 1⟩ := by
  have h := thorns_and_projectile_sum_before_health
  exact h.2.2.2.2 (handleCollisions c8State) 0 5 1 ⟨3 + 7, 1⟩ h.1

/-! ## C4: the input → velocity system -/

theorem inputVelBody_frame (s : EngineState) (i : ℕ) :
    (inputVelBody s i).inputs = s.inputs ∧ (inputVelBody s i).speeds = s.speeds ∧
    ∀ e, e ≠ i → sget (inputVelBody s i).velocities e = sget s.velocities e := by
  unfold inputVelBody
  cases h1 : sget s.inputs i with
  | none => exact ⟨rfl, rfl, fun e he => rfl⟩
  | some inp =>
    cases h2 : sget s.velocities i with
    | none => exact ⟨rfl, rfl, fun e he => rfl⟩
    | some v =>
      cases h3 : sget s.speeds i with
      | none => exact ⟨rfl, rfl, fun e he => rfl⟩
      | some spd => exact ⟨rfl, rfl, fun e he => sget_sset_ne _ _ _ _ he⟩

theorem inputVelBody_at_self (s : EngineState) (i : ℕ) (inp : InputState)
    (spd : Speed) (h1 : sget s.inputs i = some inp) (h3 : sget s.speeds i = some spd)
    (h2 : (sget s.velocities i).isSome = true) :
    sget (inputVelBody s i).velocities i
      = some ⟨inp.moveX * spd.value, inp.moveY * spd.value⟩ := by
  unfold inputVelBody
  cases hv : sget s.velocities i with
  | none =>
      rw [hv] at h2
      exact absurd h2 (by simp)
  | some v =>
      rw [h1, h3]
      exact sget_sset_self _ _ _

/-- The fold invariant for the input system: inputs and speeds are never
written. -/
def ivInv (st s : EngineState) : Prop :=
  s.inputs = st.inputs ∧ s.speeds = st.speeds

theorem inputVel_fold_keep (st : EngineState) (e : ℕ) (inp : InputState) (spd : Speed)
    (hi : sget st.inputs e = some inp) (hs : sget st.speeds e = some spd) :
    ∀ (l : List ℕ) (s : EngineState), ivInv st s →
      sget s.velocities e = some ⟨inp.moveX * spd.value, inp.moveY * spd.value⟩ →
      sget (l.foldl inputVelBody s).velocities e
        = some ⟨inp.moveX * spd.value, inp.moveY * spd.value⟩ := by
  intro l
  induction l with
  | nil => intro s _ hval; exact hval
  | cons x xs ih =>
      intro s hInv hval
      rw [List.foldl_cons]
      have hframe := inputVelBody_frame s x
      have hInv' : ivInv st (inputVelBody s x) :=
        ⟨hframe.1.trans hInv.1, hframe.2.1.trans hInv.2⟩
      by_cases hx : e = x
      · subst hx
        have hstep : sget (inputVelBody s e).velocities e
            = some ⟨inp.moveX * spd.value, inp.moveY * spd.value⟩ := by
          apply inputVelBody_at_self s e inp spd
          · rw [hInv.1]; exact hi
          · rw [hInv.2]; exact hs
          · rw [hval]; rfl
        exact ih _ hInv' hstep
      · exact ih _ hInv' ((hframe.2.2 e hx).trans hval)

theorem inputVel_fold_main (st : EngineState) (e : ℕ) (inp : InputState) (spd : Speed)
    (hi : sget st.inputs e = some inp) (hs : sget st.speeds e = some spd) :
    ∀ (l : List ℕ) (s : EngineState), ivInv st s →
      (sget s.velocities e).isSome = true → e ∈ l →
      sget (l.foldl inputVelBody s).velocities e
        = some ⟨inp.moveX * spd.value, inp.moveY * spd.value⟩ := by
  intro l
  induction l with
  | nil => intro s _ _ hmem; exact absurd hmem (List.not_mem_nil e)
  | cons x xs ih =>
      intro s hInv hpres hmem
      rw [List.foldl_cons]
      have hframe := inputVelBody_frame s x
      have hInv' : ivInv st (inputVelBody s x) :=
        ⟨hframe.1.trans hInv.1, hframe.2.1.trans hInv.2⟩
      by_cases hx : e = x
      · subst hx
        have hstep : sget (inputVelBody s e).velocities e
            = some ⟨inp.moveX * spd.value, inp.moveY * spd.value⟩ := by
          apply inputVelBody_at_self s e inp spd
          · rw [hInv.1]; exact hi
          · rw [hInv.2]; exact hs
          · exact hpres
        exact inputVel_fold_keep st e inp spd hi hs xs _ hInv' hstep
      · have hmem' : e ∈ xs := by
          rcases List.mem_cons.mp hmem with h | h
          · exact absurd h hx
          · exact h
        refine ih _ hInv' ?_ hmem'
        rw [hframe.2.2 e hx]
        exact hpres

/-- C4 (amended): for every entity having `InputState`, `Velocity` and
`Speed`, the first pipeline system sets its Velocity componentwise to the raw
(unnormalized) input axis pair times the speed scalar.  Zero input still
yields zero velocity, but the resulting squared magnitude is `speed²` times
the squared magnitude of the input pair — not `speed²` itself. -/
theorem input_velocity_componentwise (st : EngineState) (e : ℕ) (inp : InputState)
    (spd : Speed) (v0 : Velocity)
    (hi : sget st.inputs e = some inp) (hs : sget st.speeds e = some spd)
    (hv : sget st.velocities e = some v0) :
    sget (inputVelocitySystem st).velocities e
        = some ⟨inp.moveX * spd.value, inp.moveY * spd.value⟩ ∧
    (inp.moveX = 0 ∧ inp.moveY = 0 →
      sget (inputVelocitySystem st).velocities e = some ⟨0, 0⟩) ∧
    (∀ vx vy, sget (inputVelocitySystem st).velocities e = some ⟨vx, vy⟩ →
      vx * vx + vy * vy
        = spd.value * spd.value * (inp.moveX * inp.moveX + inp.moveY * inp.moveY)) := by
  have helt : e < st.velocities.length := lt_length_of_sget_eq_some _ _ _ hv
  have hmem : e ∈ List.range
      (max st.inputs.length (max st.velocities.length st.speeds.length)) := by
    rw [List.mem_range]
    omega
  have hmain : sget (inputVelocitySystem st).velocities e
      = some ⟨inp.moveX * spd.value, inp.moveY * spd.value⟩ :=
    inputVel_fold_main st e inp spd hi hs _ st ⟨rfl, rfl⟩ (by rw [hv]; rfl) hmem
  refine ⟨hmain, ?_, ?_⟩
  · rintro ⟨hx, hy⟩
    rw [hmain, hx, hy]
    norm_num
  · intro vx vy hval
    rw [hmain] at hval
    cases hval
    ring

/-- A one-entity state with input `(2, 0)` and speed `3` for the C4
witness. -/
def c4WitnessState : EngineState where
  reg := ⟨[true], []⟩
  positions := [none]
  velocities := [some ⟨0, 0⟩]
  speeds := [some ⟨3⟩]
  looks := [none]
  healths := [none]
  hitboxes := [none]
  colliders := [none]
  factions := [none]
  pendings := [none]
  piercings := [none]
  targetLists := [none]
  ranges := [none]
  respawnables := [none]
  lifetimes := [none]
  damages := [none]
  patterns := [none]
  inputs := [some ⟨2, 0, false, false, false⟩]
  weapons := [none]
  desireds := [none]
  thorns := [none]
  archRefs := [none]

/-- Closed witness for `input_velocity_componentwise`: a one-entity state with
input `(2, 0)` and speed `3` gets velocity `(6, 0)`. -/
theorem input_velocity_componentwise_witness :
    sget (inputVelocitySystem c4WitnessState).velocities 0 = some ⟨2 * 3, 0 * 3⟩ := by
  exact (input_velocity_componentwise c4WitnessState 0 ⟨2, 0, false, false, false⟩
    ⟨3⟩ ⟨0, 0⟩ (by with_unfolding_all decide) (by with_unfolding_all decide)
    (by with_unfolding_all decide)).1

/-- The C4 counterexample state: one entity with input `(1, 1)` and speed
`1`. -/
def c4State : EngineState where
  reg := ⟨[true], []⟩
  positions := [none]
  velocities := [some ⟨0, 0⟩]
  speeds := [some ⟨1⟩]
  looks := [none]
  healths := [none]
  hitboxes := [none]
  colliders := [none]
  factions := [none]
  pendings := [none]
  piercings := [none]
  targetLists := [none]
  ranges := [none]
  respawnables := [none]
  lifetimes := [none]
  damages := [none]
  patterns := [none]
  inputs := [some ⟨1, 1, false, false, false⟩]
  weapons := [none]
  desireds := [none]
  thorns := [none]
  archRefs := [none]

/-- C4 (counterexample): with the non-zero input pair `(1, 1)` and speed `1`,
the input system produces velocity `(1, 1)`, whose squared magnitude is `2`,
not `1 = speed²` — since both magnitudes are non-negative, the magnitude does
not equal the speed scalar, refuting the claimed normalization. -/
theorem input_velocity_not_normalized :
    sget (inputVelocitySystem c4State).velocities 0 = some ⟨1, 1⟩ ∧
    ¬((1 : ℚ) * 1 + 1 * 1 = 1 * 1) := by
  constructor
  · with_unfolding_all decide
  · norm_num


/-! ## C3: solid-collision tie-break -/

/-- Clamp step: entity `i` moving right against higher-index solid `j`. -/
theorem solidXInner_clamp_step
    (i j : ℕ) (hij : i < j)
    (oldX oldY resolvedX : ℚ) (hbA : Hitbox) (colA : Collider)
    (s : EngineState) (rest : List ℕ)
    (posB : Position) (hbB : Hitbox) (colB : Collider)
    (hpos : sget s.positions j = some posB)
    (hhb : sget s.hitboxes j = some hbB)
    (hcol : sget s.colliders j = some colB)
    (hsolid : colB.isSolid = true)
    (hmask : ¬((colA.mask &&& colB.layer) = 0 ∧ (colB.mask &&& colA.layer) = 0))
    (hovY : ¬(posB.y + hbB.offsetY + hbB.halfHeight < oldY + hbA.offsetY - hbA.halfHeight ∨
              oldY + hbA.offsetY + hbA.halfHeight < posB.y + hbB.offsetY - hbB.halfHeight))
    (hmove : oldX < resolvedX)
    (hnewr : posB.x + hbB.offsetX - hbB.halfWidth < resolvedX + hbA.offsetX + hbA.halfWidth)
    (holdr : oldX + hbA.offsetX + hbA.halfWidth ≤ posB.x + hbB.offsetX - hbB.halfWidth) :
    solidXInner i oldX oldY hbA colA (j :: rest) (resolvedX, s)
      = solidXInner i oldX oldY hbA colA rest
          (posB.x + hbB.offsetX - hbB.halfWidth - hbA.offsetX - hbA.halfWidth,
           zeroVelX s i) := by
  rw [solidXInner, if_neg (Nat.ne_of_lt hij)]
  rw [hpos, hhb, hcol]
  norm_num [hsolid, hij]
  rw [if_neg hmask, if_neg hovY]
  rw [if_pos (⟨hmove, hnewr, holdr⟩ :
    oldX < resolvedX ∧
      posB.x + hbB.offsetX - hbB.halfWidth < resolvedX + hbA.offsetX + hbA.halfWidth ∧
        oldX + hbA.offsetX + hbA.halfWidth ≤ posB.x + hbB.offsetX - hbB.halfWidth)]
  rw [if_neg (by rintro ⟨h1, -, -⟩; simp only at h1; linarith)]

/-- Skip step: entity `j` iterating over lower-index non-static solid `i`
leaves its accumulator untouched (the tie-break treats `j` itself as the
moving side only against higher indices). -/
theorem solidXInner_skip_step
    (i j : ℕ) (hij : i < j)
    (oldX oldY : ℚ) (hbA : Hitbox) (colA : Collider)
    (acc : ℚ × EngineState) (rest : List ℕ)
    (posB : Position) (hbB : Hitbox) (colB : Collider)
    (hpos : sget acc.2.positions i = some posB)
    (hhb : sget acc.2.hitboxes i = some hbB)
    (hcol : sget acc.2.colliders i = some colB)
    (hstatic : colB.isStatic = false) :
    solidXInner j oldX oldY hbA colA (i :: rest) acc
      = solidXInner j oldX oldY hbA colA rest acc := by
  obtain ⟨resolvedX, s⟩ := acc
  rw [solidXInner, if_neg (Nat.ne_of_gt hij)]
  simp only at hpos hhb hcol
  rw [hpos, hhb, hcol]
  norm_num [hstatic, Nat.not_lt.mpr (Nat.le_of_lt hij)]

/-- Clamp step on the Y axis: entity `i` moving down against higher-index
solid `j`. -/
theorem solidYInner_clamp_step
    (i j : ℕ) (hij : i < j)
    (oldY finalX resolvedY : ℚ) (hbA : Hitbox) (colA : Collider)
    (s : EngineState) (rest : List ℕ)
    (posB : Position) (hbB : Hitbox) (colB : Collider)
    (hpos : sget s.positions j = some posB)
    (hhb : sget s.hitboxes j = some hbB)
    (hcol : sget s.colliders j = some colB)
    (hsolid : colB.isSolid = true)
    (hmask : ¬((colA.mask &&& colB.layer) = 0 ∧ (colB.mask &&& colA.layer) = 0))
    (hovX : ¬(posB.x + hbB.offsetX + hbB.halfWidth < finalX + hbA.offsetX - hbA.halfWidth ∨
              finalX + hbA.offsetX + hbA.halfWidth < posB.x + hbB.offsetX - hbB.halfWidth))
    (hmove : oldY < resolvedY)
    (hnewb : posB.y + hbB.offsetY - hbB.halfHeight < resolvedY + hbA.offsetY + hbA.halfHeight)
    (holdb : oldY + hbA.offsetY + hbA.halfHeight ≤ posB.y + hbB.offsetY - hbB.halfHeight) :
    solidYInner i oldY finalX hbA colA (j :: rest) (resolvedY, s)
      = solidYInner i oldY finalX hbA colA rest
          (posB.y + hbB.offsetY - hbB.halfHeight - hbA.offsetY - hbA.halfHeight,
           zeroVelY s i) := by
  rw [solidYInner, if_neg (Nat.ne_of_lt hij)]
  rw [hpos, hhb, hcol]
  norm_num [hsolid, hij]
  rw [if_neg hmask, if_neg hovX]
  rw [if_pos (⟨hmove, hnewb, holdb⟩ :
    oldY < resolvedY ∧
      posB.y + hbB.offsetY - hbB.halfHeight < resolvedY + hbA.offsetY + hbA.halfHeight ∧
        oldY + hbA.offsetY + hbA.halfHeight ≤ posB.y + hbB.offsetY - hbB.halfHeight)]
  rw [if_neg (by rintro ⟨h1, -, -⟩; simp only at h1; linarith)]

/-- Skip step on the Y axis: entity `j` against lower-index non-static `i`. -/
theorem solidYInner_skip_step
    (i j : ℕ) (hij : i < j)
    (oldY finalX : ℚ) (hbA : Hitbox) (colA : Collider)
    (acc : ℚ × EngineState) (rest : List ℕ)
    (posB : Position) (hbB : Hitbox) (colB : Collider)
    (hpos : sget acc.2.positions i = some posB)
    (hhb : sget acc.2.hitboxes i = some hbB)
    (hcol : sget acc.2.colliders i = some colB)
    (hstatic : colB.isStatic = false) :
    solidYInner j oldY finalX hbA colA (i :: rest) acc
      = solidYInner j oldY finalX hbA colA rest acc := by
  obtain ⟨resolvedY, s⟩ := acc
  rw [solidYInner, if_neg (Nat.ne_of_gt hij)]
  simp only at hpos hhb hcol
  rw [hpos, hhb, hcol]
  norm_num [hstatic, Nat.not_lt.mpr (Nat.le_of_lt hij)]

/-- The C3 state: two non-static solid entities; entity 0 at x = 0 staged to
move right to x = 5/2, entity 1 stationary at x = 4, unit half-extents. -/
def c3State : EngineState where
  reg := ⟨[true, true], []⟩
  positions := [some ⟨0, 0⟩, some ⟨4, 0⟩]
  velocities := [some ⟨5/2, 0⟩, some ⟨0, 0⟩]
  speeds := [none, none]
  looks := [none, none]
  healths := [none, none]
  hitboxes := [some ⟨1, 1, 0, 0⟩, some ⟨1, 1, 0, 0⟩]
  colliders := [some ⟨1, 1, true, false, false⟩, some ⟨1, 1, true, false, false⟩]
  factions := [none, none]
  pendings := [none, none]
  piercings := [none, none]
  targetLists := [none, none]
  ranges := [none, none]
  respawnables := [none, none]
  lifetimes := [none, none]
  damages := [none, none]
  patterns := [none, none]
  inputs := [none, none]
  weapons := [none, none]
  desireds := [some ⟨5/2, 0⟩, some ⟨4, 0⟩]
  thorns := [none, none]
  archRefs := [none, none]

/-- C3 (counterexample): in the two-entity state `c3State`, both colliders
solid and non-static and entity 0 staged to cross entity 1 on the X axis,
`resolveSolidCollisions` clamps the LOWER-index entity 0 (DesiredPosition x
from `5/2` to `2`, velocity x zeroed) and leaves the higher-index entity 1
untouched — refuting the claim that the lower-index entity is the immovable
side with only the higher-index entity clamped. -/
theorem solid_tiebreak_counterexample :
    sget (resolveSolidCollisions c3State).desireds 0 = some ⟨2, 0⟩ ∧
    sget (resolveSolidCollisions c3State).velocities 0 = some ⟨0, 0⟩ ∧
    sget (resolveSolidCollisions c3State).desireds 1 = some ⟨4, 0⟩ ∧
    sget (resolveSolidCollisions c3State).velocities 1 = some ⟨0, 0⟩ ∧
    sget c3State.desireds 0 = some ⟨5/2, 0⟩ := by
  refine ⟨?_, ?_, ?_, ?_, ?_⟩ <;> with_unfolding_all decide

/-- C3 (amended): in solid collision resolution, for every pair of solid,
non-static colliders `i < j` with intersecting layer/mask bits whose staged
movement would make them cross on an axis, the HIGHER-index entity `j` is
treated as the immovable side: the lower-index entity's resolved coordinate
is clamped on that axis against the higher-index entity's boundary with the
corresponding velocity component zeroed (conjuncts 1 and 3, X and Y axes),
while the higher-index entity's own pass skips the pair entirely (conjuncts
2 and 4). -/
theorem solid_tiebreak_clamps_lower
    (i j : ℕ) (hij : i < j)
    (oldX oldY resolvedX : ℚ) (hbA : Hitbox) (colA : Collider)
    (s : EngineState) (rest : List ℕ)
    (posB : Position) (hbB : Hitbox) (colB : Collider)
    (hpos : sget s.positions j = some posB)
    (hhb : sget s.hitboxes j = some hbB)
    (hcol : sget s.colliders j = some colB)
    (hsolid : colB.isSolid = true)
    (hstaticA : colA.isStatic = false)
    (hstaticB : colB.isStatic = false)
    (hmask : ¬((colA.mask &&& colB.layer) = 0 ∧ (colB.mask &&& colA.layer) = 0))
    (hovY : ¬(posB.y + hbB.offsetY + hbB.halfHeight < oldY + hbA.offsetY - hbA.halfHeight ∨
              oldY + hbA.offsetY + hbA.halfHeight < posB.y + hbB.offsetY - hbB.halfHeight))
    (hmove : oldX < resolvedX)
    (hnewr : posB.x + hbB.offsetX - hbB.halfWidth < resolvedX + hbA.offsetX + hbA.halfWidth)
    (holdr : oldX + hbA.offsetX + hbA.halfWidth ≤ posB.x + hbB.offsetX - hbB.halfWidth) :
    (solidXInner i oldX oldY hbA colA (j :: rest) (resolvedX, s)
       = solidXInner i oldX oldY hbA colA rest
           (posB.x + hbB.offsetX - hbB.halfWidth - hbA.offsetX - hbA.halfWidth,
            zeroVelX s i))
    ∧ (∀ (oldX2 oldY2 : ℚ) (hbA2 : Hitbox) (colA2 : Collider)
         (acc : ℚ × EngineState) (rest2 : List ℕ)
         (posC : Position) (hbC : Hitbox) (colC : Collider),
         sget acc.2.positions i = some posC →
         sget acc.2.hitboxes i = some hbC →
         sget acc.2.colliders i = some colC →
         colC.isStatic = false →
         solidXInner j oldX2 oldY2 hbA2 colA2 (i :: rest2) acc
           = solidXInner j oldX2 oldY2 hbA2 colA2 rest2 acc)
    ∧ (∀ (oldY2 finalX resolvedY : ℚ) (hbA2 : Hitbox) (colA2 : Collider)
         (s2 : EngineState) (rest2 : List ℕ)
         (posC : Position) (hbC : Hitbox) (colC : Collider),
         sget s2.positions j = some posC →
         sget s2.hitboxes j = some hbC →
         sget s2.colliders j = some colC →
         colC.isSolid = true →
         ¬((colA2.mask &&& colC.layer) = 0 ∧ (colC.mask &&& colA2.layer) = 0) →
         ¬(posC.x + hbC.offsetX + hbC.halfWidth < finalX + hbA2.offsetX - hbA2.halfWidth ∨
           finalX + hbA2.offsetX + hbA2.halfWidth < posC.x + hbC.offsetX - hbC.halfWidth) →
         oldY2 < resolvedY →
         posC.y + hbC.offsetY - hbC.halfHeight
           < resolvedY + hbA2.offsetY + hbA2.halfHeight →
         oldY2 + hbA2.offsetY + hbA2.halfHeight
           ≤ posC.y + hbC.offsetY - hbC.halfHeight →
         solidYInner i oldY2 finalX hbA2 colA2 (j :: rest2) (resolvedY, s2)
           = solidYInner i oldY2 finalX hbA2 colA2 rest2
               (posC.y + hbC.offsetY - hbC.halfHeight - hbA2.offsetY - hbA2.halfHeight,
                zeroVelY s2 i))
    ∧ (∀ (oldY2 finalX : ℚ) (hbA2 : Hitbox) (colA2 : Collider)
         (acc : ℚ × EngineState) (rest2 : List ℕ)
         (posC : Position) (hbC : Hitbox) (colC : Collider),
         sget acc.2.positions i = some posC →
         sget acc.2.hitboxes i = some hbC →
         sget acc.2.colliders i = some colC →
         colC.isStatic = false →
         solidYInner j oldY2 finalX hbA2 colA2 (i :: rest2) acc
           = solidYInner j oldY2 finalX hbA2 colA2 rest2 acc) := by
  refine ⟨?_, ?_, ?_, ?_⟩
  · exact solidXInner_clamp_step i j hij oldX oldY resolvedX hbA colA s rest posB hbB colB
      hpos hhb hcol hsolid hmask hovY hmove hnewr holdr
  · intro oldX2 oldY2 hbA2 colA2 acc rest2 posC hbC colC h1 h2 h3 h4
    exact solidXInner_skip_step i j hij oldX2 oldY2 hbA2 colA2 acc rest2 posC hbC colC
      h1 h2 h3 h4
  · intro oldY2 finalX resolvedY hbA2 colA2 s2 rest2 posC hbC colC h1 h2 h3 h4 h5 h6 h7 h8 h9
    exact solidYInner_clamp_step i j hij oldY2 finalX resolvedY hbA2 colA2 s2 rest2
      posC hbC colC h1 h2 h3 h4 h5 h6 h7 h8 h9
  · intro oldY2 finalX hbA2 colA2 acc rest2 posC hbC colC h1 h2 h3 h4
    exact solidYInner_skip_step i j hij oldY2 finalX hbA2 colA2 acc rest2 posC hbC colC
      h1 h2 h3 h4

/-- Closed witness for `solid_tiebreak_clamps_lower`: the clamp and skip
conjuncts applied to the concrete pair of `c3State`. -/
theorem solid_tiebreak_clamps_lower_witness :
    (solidXInner 0 0 0 ⟨1, 1, 0, 0⟩ ⟨1, 1, true, false, false⟩ [1] (5/2, c3State)
       = solidXInner 0 0 0 ⟨1, 1, 0, 0⟩ ⟨1, 1, true, false, false⟩ []
           (4 + 0 - 1 - 0 - 1, zeroVelX c3State 0))
    ∧ (solidXInner 1 4 0 ⟨1, 1, 0, 0⟩ ⟨1, 1, true, false, false⟩ [0] (4, c3State)
       = solidXInner 1 4 0 ⟨1, 1, 0, 0⟩ ⟨1, 1, true, false, false⟩ [] (4, c3State)) := by
  have h := solid_tiebreak_clamps_lower 0 1 (by decide) 0 0 (5/2)
    ⟨1, 1, 0, 0⟩ ⟨1, 1, true, false, false⟩ c3State [] ⟨4, 0⟩ ⟨1, 1, 0, 0⟩
    ⟨1, 1, true, false, false⟩
    (by with_unfolding_all decide) (by with_unfolding_all decide)
    (by with_unfolding_all decide) rfl rfl rfl (by decide)
    (by with_unfolding_all decide) (by with_unfolding_all decide)
    (by with_unfolding_all decide) (by with_unfolding_all decide)
  exact ⟨h.1, h.2.1 4 0 ⟨1, 1, 0, 0⟩ ⟨1, 1, true, false, false⟩ (4, c3State) []
    ⟨0, 0⟩ ⟨1, 1, 0, 0⟩ ⟨1, 1, true, false, false⟩
    (by with_unfolding_all decide) (by with_unfolding_all decide)
    (by with_unfolding_all decide) rfl⟩


/-! ## C10: persistence of fire flags for weapon-system-exempt entities -/

/-- Generic preservation of a predicate along a left fold. -/
theorem foldl_pres {σ : Type _} {ι : Type _} (Q : σ → Prop) (f : σ → ι → σ)
    (h : ∀ s i, Q s → Q (f s i)) :
    ∀ (l : List ι) (s : σ), Q s → Q (l.foldl f s) := by
  intro l
  induction l with
  | nil => intro s hq; exact hq
  | cons x xs ih => intro s hq; exact ih (f s x) (h s x hq)

/-- The stores relevant to the fire-flag frame are untouched (the registry
included). -/
def frame4 (s0 s : EngineState) : Prop :=
  s.inputs = s0.inputs ∧ s.weapons = s0.weapons ∧ s.positions = s0.positions ∧
    s.looks = s0.looks ∧ s.reg = s0.reg

theorem frame4_refl (s : EngineState) : frame4 s s := ⟨rfl, rfl, rfl, rfl, rfl⟩

theorem frame4_trans {s0 s1 s2 : EngineState} (h1 : frame4 s0 s1)
    (h2 : frame4 s1 s2) : frame4 s0 s2 := by
  obtain ⟨a1, b1, c1, d1, e1⟩ := h1
  obtain ⟨a2, b2, c2, d2, e2⟩ := h2
  exact ⟨a2.trans a1, b2.trans b1, c2.trans c1, d2.trans d1, e2.trans e1⟩

/-- Strong invariant for the kill-free phases (systems and geometry passes):
the entity is alive, not free-listed, holds input `inp`, and misses one of the
three weapon-system prerequisites. -/
def inputFramePE (e : ℕ) (inp : InputState) (s : EngineState) : Prop :=
  s.reg.aliveAt e = true ∧ e ∉ s.reg.freeIds ∧
  sget s.inputs e = some inp ∧
  (sget s.weapons e = none ∨ sget s.positions e = none ∨ sget s.looks e = none)

/-- Weak invariant for the kill phases: as long as the entity survives, its
input state is unchanged. -/
def inputFrameP (e : ℕ) (inp : InputState) (s : EngineState) : Prop :=
  s.reg.aliveAt e = true → sget s.inputs e = some inp

theorem inputFrameP_of_PE {e : ℕ} {inp : InputState} {s : EngineState}
    (h : inputFramePE e inp s) : inputFrameP e inp s :=
  fun _ => h.2.2.1

theorem inputFramePE_of_frame4 {e : ℕ} {inp : InputState} {s0 s : EngineState}
    (hf : frame4 s0 s) (h : inputFramePE e inp s0) : inputFramePE e inp s := by
  obtain ⟨hi, hw, hp, hl, hr⟩ := hf
  exact ⟨by rw [hr]; exact h.1, by rw [hr]; exact h.2.1,
    by rw [hi]; exact h.2.2.1,
    by rw [hw, hp, hl]; exact h.2.2.2⟩

theorem inputFrameP_of_frame4 {e : ℕ} {inp : InputState} {s0 s : EngineState}
    (hf : frame4 s0 s) (h : inputFrameP e inp s0) : inputFrameP e inp s := by
  obtain ⟨hi, hw, hp, hl, hr⟩ := hf
  intro ha
  rw [hi]
  exact h (by rw [hr] at ha; exact ha)

theorem zeroVelX_frame4 (s : EngineState) (i : ℕ) : frame4 s (zeroVelX s i) := by
  unfold zeroVelX
  split
  all_goals exact ⟨rfl, rfl, rfl, rfl, rfl⟩

theorem zeroVelY_frame4 (s : EngineState) (i : ℕ) : frame4 s (zeroVelY s i) := by
  unfold zeroVelY
  split
  all_goals exact ⟨rfl, rfl, rfl, rfl, rfl⟩

theorem inputVelBody_frame4 (s : EngineState) (i : ℕ) :
    frame4 s (inputVelBody s i) := by
  unfold inputVelBody
  split
  all_goals exact ⟨rfl, rfl, rfl, rfl, rfl⟩

theorem inputVelocitySystem_frame4 (st : EngineState) :
    frame4 st (inputVelocitySystem st) := by
  unfold inputVelocitySystem
  exact foldl_pres (frame4 st) inputVelBody
    (fun s i hq => frame4_trans hq (inputVelBody_frame4 s i)) _ st (frame4_refl st)

theorem integrateSystem_frame4 (dt : ℚ) (st : EngineState) :
    frame4 st (integrateSystem dt st) := by
  unfold integrateSystem
  refine foldl_pres (frame4 st) _ (fun s i hq => frame4_trans hq ?_) _ st (frame4_refl st)
  unfold integrateBody
  split
  all_goals exact ⟨rfl, rfl, rfl, rfl, rfl⟩

theorem lifetimeSystem_frame4 (dt : ℚ) (st : EngineState) :
    frame4 st (lifetimeSystem dt st) := by
  unfold lifetimeSystem
  refine foldl_pres (frame4 st) _ (fun s i hq => frame4_trans hq ?_) _ st (frame4_refl st)
  unfold lifetimeBody
  split
  all_goals exact ⟨rfl, rfl, rfl, rfl, rfl⟩

theorem movementBody_frame4 (dt : ℚ) (s : EngineState) (i : ℕ) :
    frame4 s (movementBody dt s i) := by
  unfold movementBody
  split
  case _ pat pos _ =>
    split
    · exact ⟨rfl, rfl, rfl, rfl, rfl⟩
    · split
      all_goals exact ⟨rfl, rfl, rfl, rfl, rfl⟩
  case _ => exact ⟨rfl, rfl, rfl, rfl, rfl⟩

theorem movementSystem_frame4 (dt : ℚ) (st : EngineState) :
    frame4 st (movementSystem dt st) := by
  unfold movementSystem
  exact foldl_pres (frame4 st) _
    (fun s i hq => frame4_trans hq (movementBody_frame4 dt s i)) _ st (frame4_refl st)

theorem solidXInner_frame4 (i : ℕ) (oldX oldY : ℚ) (hbA : Hitbox)
    (colA : Collider) :
    ∀ (l : List ℕ) (acc : ℚ × EngineState),
      frame4 acc.2 (solidXInner i oldX oldY hbA colA l acc).2 := by
  intro l
  induction l with
  | nil => intro acc; exact frame4_refl _
  | cons j rest ih =>
    intro acc
    rw [solidXInner]
    dsimp only
    repeat' split
    all_goals first
      | exact ih acc
      | exact frame4_trans (zeroVelX_frame4 _ _) (ih _)
      | exact frame4_trans (frame4_trans (zeroVelX_frame4 _ _) (zeroVelX_frame4 _ _)) (ih _)
      | exact frame4_refl _

theorem solidYInner_frame4 (i : ℕ) (oldY finalX : ℚ) (hbA : Hitbox)
    (colA : Collider) :
    ∀ (l : List ℕ) (acc : ℚ × EngineState),
      frame4 acc.2 (solidYInner i oldY finalX hbA colA l acc).2 := by
  intro l
  induction l with
  | nil => intro acc; exact frame4_refl _
  | cons j rest ih =>
    intro acc
    rw [solidYInner]
    dsimp only
    repeat' split
    all_goals first
      | exact ih acc
      | exact frame4_trans (zeroVelY_frame4 _ _) (ih _)
      | exact frame4_trans (frame4_trans (zeroVelY_frame4 _ _) (zeroVelY_frame4 _ _)) (ih _)
      | exact frame4_refl _

theorem solidXBody_frame4 (count : ℕ) (s : EngineState) (i : ℕ) :
    frame4 s (solidXBody count s i) := by
  unfold solidXBody
  split
  · split
    · exact frame4_refl _
    · exact frame4_trans (solidXInner_frame4 i _ _ _ _ _ _) ⟨rfl, rfl, rfl, rfl, rfl⟩
  · exact frame4_refl _

theorem solidYBody_frame4 (count : ℕ) (s : EngineState) (i : ℕ) :
    frame4 s (solidYBody count s i) := by
  unfold solidYBody
  split
  · split
    · exact frame4_refl _
    · exact frame4_trans (solidYInner_frame4 i _ _ _ _ _ _) ⟨rfl, rfl, rfl, rfl, rfl⟩
  · exact frame4_refl _

theorem resolveSolidCollisions_frame4 (st : EngineState) :
    frame4 st (resolveSolidCollisions st) := by
  unfold resolveSolidCollisions
  refine frame4_trans
    (foldl_pres (frame4 st) _
      (fun s i hq => frame4_trans hq (solidXBody_frame4 _ s i)) _ st (frame4_refl st))
    (foldl_pres (frame4 _) _
      (fun s i hq => frame4_trans hq (solidYBody_frame4 _ s i)) _ _ (frame4_refl _))

theorem frame4_zeroVelX_any {s0 s : EngineState} (h : frame4 s0 s) (i : ℕ) :
    frame4 s0 (zeroVelX s i) := frame4_trans h (zeroVelX_frame4 s i)

theorem frame4_zeroVelY_any {s0 s : EngineState} (h : frame4 s0 s) (i : ℕ) :
    frame4 s0 (zeroVelY s i) := frame4_trans h (zeroVelY_frame4 s i)

theorem frame4_setDesireds {s0 s : EngineState} (h : frame4 s0 s)
    (v : List (Option DesiredPosition)) : frame4 s0 { s with desireds := v } :=
  frame4_trans h ⟨rfl, rfl, rfl, rfl, rfl⟩

theorem enforceLoop_frame4 (cfg : GameConfig) :
    ∀ (l : List ℕ) (s : EngineState), frame4 s (enforceLoop cfg s l) := by
  intro l
  induction l with
  | nil => intro s; exact frame4_refl _
  | cons i rest ih =>
    intro s
    rw [enforceLoop]
    dsimp only
    repeat' split
    all_goals first
      | exact ih s
      | exact frame4_zeroVelY_any (frame4_setDesireds
          (frame4_zeroVelX_any (frame4_setDesireds (frame4_refl _) _) _) _) _
      | exact frame4_zeroVelY_any (frame4_setDesireds (frame4_refl _) _) _
      | exact frame4_zeroVelX_any (frame4_setDesireds (frame4_refl _) _) _
      | exact frame4_refl _

theorem enforcePlayable_frame4 (cfg : GameConfig) (st : EngineState) :
    frame4 st (enforcePlayableBoundsForPlayer cfg st) := by
  unfold enforcePlayableBoundsForPlayer
  split
  · exact enforceLoop_frame4 cfg _ st
  · exact frame4_refl _

/-- `aliveAt` forces the index below the liveness vector's length. -/
theorem aliveAt_lt_length {r : RegState} {e : ℕ} (h : r.aliveAt e = true) :
    e < r.alive.length := by
  by_contra hlt
  unfold RegState.aliveAt at h
  rw [List.getD_eq_getElem?_getD, List.getElem?_eq_none (Nat.le_of_not_lt hlt)] at h
  simp at h

/-- Spawning never disturbs an alive, non-free-listed index: the new id is
different, the index stays alive and off the free list, and every component
store is untouched. -/
theorem spawnEntity_fresh (s : EngineState) (e : ℕ)
    (halive : s.reg.aliveAt e = true) (hfree : e ∉ s.reg.freeIds) :
    (spawnEntity s).2 ≠ e ∧
    (spawnEntity s).1.reg.aliveAt e = true ∧
    e ∉ (spawnEntity s).1.reg.freeIds := by
  have hlen : e < s.reg.alive.length := aliveAt_lt_length halive
  unfold spawnEntity RegState.spawnEntity
  cases hf : s.reg.freeIds with
  | nil =>
    refine ⟨?_, ?_, ?_⟩
    · exact Nat.ne_of_gt hlen
    · unfold RegState.aliveAt at halive ⊢
      simp only
      rw [List.getD_eq_getElem?_getD, List.getElem?_append_left hlen,
        ← List.getD_eq_getElem?_getD]
      exact halive
    · simp only
      rw [hf] at hfree
      exact hfree
  | cons id rest =>
    rw [hf] at hfree
    have hne : id ≠ e := fun h => hfree (h ▸ List.mem_cons_self id rest)
    refine ⟨?_, ?_, ?_⟩
    · exact hne
    · unfold RegState.aliveAt at halive ⊢
      simp only
      split
      · rw [List.getD_eq_getElem?_getD, List.getElem?_set_ne hne,
          ← List.getD_eq_getElem?_getD]
        exact halive
      · rw [List.getD_eq_getElem?_getD, List.getElem?_append_left hlen,
          ← List.getD_eq_getElem?_getD]
        exact halive
    · exact fun h => hfree (List.mem_cons_of_mem id h)

/-- `spawnEntity` leaves every component store unchanged. -/
theorem spawnEntity_stores (s : EngineState) :
    (spawnEntity s).1.positions = s.positions ∧
    (spawnEntity s).1.inputs = s.inputs ∧
    (spawnEntity s).1.weapons = s.weapons ∧
    (spawnEntity s).1.looks = s.looks := by
  unfold spawnEntity
  exact ⟨rfl, rfl, rfl, rfl⟩

theorem commitBody_PE (e : ℕ) (inp : InputState) (s : EngineState) (i : ℕ)
    (h : inputFramePE e inp s) :
    inputFramePE e inp
      (match sget s.positions i, sget s.desireds i with
       | some _, some des => { s with positions := sset s.positions i ⟨des.x, des.y⟩ }
       | _, _ => s) := by
  obtain ⟨ha, hf, hi, hm⟩ := h
  split
  case _ p des hp hd =>
    by_cases he : i = e
    · subst he
      refine ⟨ha, hf, hi, ?_⟩
      rcases hm with hm | hm | hm
      · exact Or.inl hm
      · rw [hp] at hm; cases hm
      · exact Or.inr (Or.inr hm)
    · refine ⟨ha, hf, hi, ?_⟩
      rcases hm with hm | hm | hm
      · exact Or.inl hm
      · exact Or.inr (Or.inl (by rw [sget_sset_ne _ _ _ _ (Ne.symm he)]; exact hm))
      · exact Or.inr (Or.inr hm)
  case _ => exact ⟨ha, hf, hi, hm⟩

theorem commitPositions_PE (e : ℕ) (inp : InputState) (st : EngineState)
    (h : inputFramePE e inp st) : inputFramePE e inp (commitPositions st) := by
  unfold commitPositions
  exact foldl_pres (inputFramePE e inp) _ (fun s i hq => commitBody_PE e inp s i hq)
    _ st h

theorem aiBody_PE (e : ℕ) (inp : InputState) (s : EngineState) (total i : ℕ)
    (h : inputFramePE e inp s) : inputFramePE e inp (aiBody s total i) := by
  obtain ⟨ha, hf, hi, hm⟩ := h
  by_cases he : i = e
  · subst he
    unfold aiBody
    cases hw : sget s.weapons i with
    | none => exact ⟨ha, hf, hi, hm⟩
    | some w =>
      cases hp : sget s.positions i with
      | none =>
        rw [hi]
        exact ⟨ha, hf, hi, hm⟩
      | some p =>
        cases hl : sget s.looks i with
        | none =>
          rw [hi]
          exact ⟨ha, hf, hi, hm⟩
        | some lk =>
          rcases hm with hm | hm | hm
          · rw [hm] at hw; cases hw
          · rw [hm] at hp; cases hp
          · rw [hm] at hl; cases hl
  · unfold aiBody
    dsimp only
    repeat' split
    all_goals first
      | exact ⟨ha, hf, hi, hm⟩
      | refine ⟨ha, hf, ?_, ?_⟩
    all_goals first
      | (rw [sget_sset_ne _ _ _ _ (Ne.symm he)]; exact hi)
      | (rcases hm with hm | hm | hm
         · exact Or.inl hm
         · exact Or.inr (Or.inl hm)
         · exact Or.inr (Or.inr
             (by rw [sget_sset_ne _ _ _ _ (Ne.symm he)]; exact hm)))

theorem aiSystem_PE (e : ℕ) (inp : InputState) (st : EngineState)
    (h : inputFramePE e inp st) : inputFramePE e inp (aiSystem st) := by
  unfold aiSystem
  exact foldl_pres (inputFramePE e inp) _
    (fun s i hq => aiBody_PE e inp s _ i hq) _ st h

/-- Predicate transport through an `if`. -/
theorem peIte {α : Type _} {c : Prop} [Decidable c] {x y : α} (P : α → Prop)
    (hx : P x) (hy : P y) : P (if c then x else y) := by
  split
  · exact hx
  · exact hy

/-- Predicate transport through an `Option` match. -/
theorem peOpt {α β : Type _} (P : β → Prop) (o : Option α) (f : α → β) (x : β)
    (hs : ∀ a, P (f a)) (hn : P x) :
    P (match o with | some a => f a | none => x) := by
  cases o with
  | none => exact hn
  | some a => exact hs a

/-- The weapon system's trailing writes (weapon state and flag clearing) at a
foreign index preserve the invariant. -/
theorem PE_finalize {e : ℕ} {inp : InputState} (s2 : EngineState) (i : ℕ)
    (he : i ≠ e) (h : inputFramePE e inp s2) (w : WeaponRef) (v : InputState) :
    inputFramePE e inp
      { { s2 with weapons := sset s2.weapons i w } with
        inputs := sset ({ s2 with weapons := sset s2.weapons i w }).inputs i v } := by
  obtain ⟨ha, hf, hi, hm⟩ := h
  refine ⟨ha, hf, ?_, ?_⟩
  · exact (sget_sset_ne _ _ _ _ (Ne.symm he)).trans hi
  · rcases hm with hmw | hmp | hml
    · exact Or.inl ((sget_sset_ne _ _ _ _ (Ne.symm he)).trans hmw)
    · exact Or.inr (Or.inl hmp)
    · exact Or.inr (Or.inr hml)

theorem weaponBody_PE (cfg : GameConfig) (dt : ℚ) (e : ℕ) (inp : InputState)
    (s : EngineState) (i : ℕ) (h : inputFramePE e inp s) :
    inputFramePE e inp (weaponBody cfg dt s i) := by
  obtain ⟨ha, hf, hi, hm⟩ := h
  by_cases he : i = e
  · subst he
    unfold weaponBody
    cases hw : sget s.weapons i with
    | none => exact ⟨ha, hf, hi, hm⟩
    | some w =>
      cases hp : sget s.positions i with
      | none =>
        rw [hi]
        exact ⟨ha, hf, hi, hm⟩
      | some p =>
        cases hl : sget s.looks i with
        | none =>
          rw [hi]
          exact ⟨ha, hf, hi, hm⟩
        | some lk =>
          rcases hm with hm | hm | hm
          · rw [hm] at hw; cases hw
          · rw [hm] at hp; cases hp
          · rw [hm] at hl; cases hl
  · have hstep := spawnEntity_fresh s e ha hf
    unfold weaponBody
    dsimp only
    repeat' split
    all_goals first
      | exact ⟨ha, hf, hi, hm⟩
      | (refine ⟨?_, ?_, ?_, ?_⟩
         · first
             | exact ha
             | exact hstep.2.1
         · first
             | exact hf
             | exact hstep.2.2
         · exact (sget_sset_ne _ _ _ _ (Ne.symm he)).trans hi
         · rcases hm with hmw | hmp | hml
           · exact Or.inl ((sget_sset_ne _ _ _ _ (Ne.symm he)).trans hmw)
           · refine Or.inr (Or.inl ?_)
             first
               | exact hmp
               | exact (sget_sset_ne _ _ _ _ (Ne.symm hstep.1)).trans hmp
           · exact Or.inr (Or.inr hml))

theorem weaponSystem_PE (cfg : GameConfig) (dt : ℚ) (e : ℕ) (inp : InputState)
    (st : EngineState) (h : inputFramePE e inp st) :
    inputFramePE e inp (weaponSystem cfg dt st) := by
  unfold weaponSystem
  exact foldl_pres (inputFramePE e inp) _
    (fun s i hq => weaponBody_PE cfg dt e inp s i hq) _ st h

theorem killEntity_P (e : ℕ) (inp : InputState) (s : EngineState) (id : ℕ)
    (h : inputFrameP e inp s) : inputFrameP e inp (killEntity s id) := by
  intro ha'
  unfold killEntity at ha' ⊢
  by_cases hal : s.reg.aliveAt id = true
  · rw [if_pos hal] at ha' ⊢
    by_cases hide : id = e
    · subst hide
      exfalso
      have hlen : id < s.reg.alive.length := aliveAt_lt_length hal
      unfold RegState.aliveAt at ha'
      simp only at ha'
      rw [List.getD_eq_getElem?_getD, List.getElem?_set_self hlen] at ha'
      simp at ha'
    · have ha0 : s.reg.aliveAt e = true := by
        unfold RegState.aliveAt at ha' ⊢
        simp only at ha'
        rw [List.getD_eq_getElem?_getD, List.getElem?_set_ne hide,
          ← List.getD_eq_getElem?_getD] at ha'
        exact ha'
      have hv := h ha0
      simp only
      rw [sget_serase_ne _ _ _ (Ne.symm hide)]
      exact hv
  · rw [if_neg hal] at ha' ⊢
    exact h ha'

theorem cull_P (cfg : GameConfig) (e : ℕ) (inp : InputState) (st : EngineState)
    (h : inputFrameP e inp st) :
    inputFrameP e inp (cullOutsideWorldBounds cfg st) := by
  unfold cullOutsideWorldBounds
  split
  · exact foldl_pres (inputFrameP e inp) killEntity
      (fun s id hq => killEntity_P e inp s id hq) _ st h
  · exact h

theorem addPendingDamage_frame4_any {s0 s : EngineState} (h : frame4 s0 s)
    (t : ℕ) (d : ℤ) (src : ℕ) : frame4 s0 (addPendingDamage s t d src) := by
  refine frame4_trans h ?_
  unfold addPendingDamage
  split
  all_goals exact ⟨rfl, rfl, rfl, rfl, rfl⟩

theorem frame4_setPiercings_any {s0 s : EngineState} (h : frame4 s0 s)
    (v : List (Option Piercing)) : frame4 s0 { s with piercings := v } :=
  frame4_trans h ⟨rfl, rfl, rfl, rfl, rfl⟩

theorem frame4_thornsHit_any {s0 s : EngineState} (h : frame4 s0 s)
    (src dst : ℕ) : frame4 s0 (thornsHit s src dst) := by
  refine frame4_trans h ?_
  unfold thornsHit
  split
  · split
    · exact addPendingDamage_frame4_any (frame4_refl _) _ _ _
    · exact frame4_refl _
  · exact frame4_refl _

theorem collidePair_frame4 (acc : EngineState × List ℕ) (p : ℕ × ℕ) :
    frame4 acc.1 (collidePair acc p).1 := by
  unfold collidePair
  dsimp only
  repeat' split
  all_goals first
    | exact frame4_refl _
    | exact frame4_thornsHit_any (frame4_thornsHit_any (frame4_refl _) _ _) _ _
    | exact addPendingDamage_frame4_any
        (frame4_thornsHit_any (frame4_thornsHit_any (frame4_refl _) _ _) _ _) _ _ _
    | exact frame4_setPiercings_any (addPendingDamage_frame4_any
        (frame4_thornsHit_any (frame4_thornsHit_any (frame4_refl _) _ _) _ _) _ _ _) _

theorem handleCollisions_P (e : ℕ) (inp : InputState) (st : EngineState)
    (h : inputFrameP e inp st) : inputFrameP e inp (handleCollisions st) := by
  unfold handleCollisions
  dsimp only
  have hfold : frame4 st ((allPairs (entsOf st)).foldl collidePair (st, [])).1 :=
    foldl_pres (fun acc : EngineState × List ℕ => frame4 st acc.1) collidePair
      (fun acc p hq => frame4_trans hq (collidePair_frame4 acc p)) _ (st, [])
      (frame4_refl st)
  exact foldl_pres (inputFrameP e inp) killEntity
    (fun s id hq => killEntity_P e inp s id hq) _ _
    (inputFrameP_of_frame4 hfold h)

theorem applyDamage_P (e : ℕ) (inp : InputState) (st : EngineState)
    (h : inputFrameP e inp st) : inputFrameP e inp (applyDamage st) := by
  unfold applyDamage
  dsimp only
  have hfold : frame4 st ((List.range st.pendings.length).foldl
      (fun (acc : EngineState × List ℕ) i =>
        let s := acc.1
        match sget s.pendings i with
        | none => acc
        | some pd =>
          let p2 :=
            match sget s.healths i with
            | some h =>
              let newh := h.value - pd.amount
              ({ s with healths := sset s.healths i ⟨newh⟩ },
               if newh ≤ 0 then acc.2 ++ [i] else acc.2)
            | none => (s, acc.2)
          ({ p2.1 with pendings := serase p2.1.pendings i }, p2.2)) (st, [])).1 := by
    refine foldl_pres (fun acc : EngineState × List ℕ => frame4 st acc.1) _
      (fun acc i hq => frame4_trans hq ?_) _ (st, []) (frame4_refl st)
    dsimp only
    repeat' split
    all_goals exact ⟨rfl, rfl, rfl, rfl, rfl⟩
  exact foldl_pres (inputFrameP e inp) killEntity
    (fun s id hq => killEntity_P e inp s id hq) _ _
    (inputFrameP_of_frame4 hfold h)

theorem lifetimeExpiry_P (e : ℕ) (inp : InputState) (st : EngineState)
    (h : inputFrameP e inp st) : inputFrameP e inp (lifetimeExpiry st) := by
  unfold lifetimeExpiry
  refine foldl_pres (inputFrameP e inp) _ (fun s i hq => ?_) _ st h
  unfold expiryBody
  split
  · split
    · exact killEntity_P e inp s i hq
    · exact hq
  · exact hq

/-- C10: for every live entity that has an `InputState` but lacks at least one
of `WeaponRef`, `Position` or `LookDirection`, a full `update` leaves its
entire `InputState` — fire flags included — unchanged as long as the entity
survives the tick: the weapon system clears the flags only for entities
carrying all four components, and no other phase writes another entity's
input state. -/
theorem input_fire_flags_persist (cfg : GameConfig) (dt : ℚ) (st : EngineState)
    (e : ℕ) (inp : InputState)
    (halive : st.reg.aliveAt e = true)
    (hfree : e ∉ st.reg.freeIds)
    (hinp : sget st.inputs e = some inp)
    (hmiss : sget st.weapons e = none ∨ sget st.positions e = none ∨
      sget st.looks e = none) :
    (update cfg dt st).reg.aliveAt e = true →
      sget (update cfg dt st).inputs e = some inp := by
  unfold update
  have h0 : inputFramePE e inp st := ⟨halive, hfree, hinp, hmiss⟩
  have h1 := inputFramePE_of_frame4 (inputVelocitySystem_frame4 st) h0
  have h2 := inputFramePE_of_frame4 (integrateSystem_frame4 dt _) h1
  have h3 := weaponSystem_PE cfg dt e inp _ h2
  have h4 := inputFramePE_of_frame4 (lifetimeSystem_frame4 dt _) h3
  have h5 := inputFramePE_of_frame4 (movementSystem_frame4 dt _) h4
  have h6 := aiSystem_PE e inp _ h5
  have h7 := inputFramePE_of_frame4 (resolveSolidCollisions_frame4 _) h6
  have h8 := inputFramePE_of_frame4 (enforcePlayable_frame4 cfg _) h7
  have h9 := commitPositions_PE e inp _ h8
  have h10 := cull_P cfg e inp _ (inputFrameP_of_PE h9)
  have h11 := handleCollisions_P e inp _ h10
  have h12 := applyDamage_P e inp _ h11
  exact lifetimeExpiry_P e inp _ h12

/-- The C10 state: one live entity whose `InputState` carries set fire flags
but which has no weapon, position or look direction. -/
def c10State : EngineState where
  reg := ⟨[true], []⟩
  positions := [none]
  velocities := [none]
  speeds := [none]
  looks := [none]
  healths := [none]
  hitboxes := [none]
  colliders := [none]
  factions := [none]
  pendings := [none]
  piercings := [none]
  targetLists := [none]
  ranges := [none]
  respawnables := [none]
  lifetimes := [none]
  damages := [none]
  patterns := [none]
  inputs := [some ⟨0, 0, true, false, true⟩]
  weapons := [none]
  desireds := [none]
  thorns := [none]
  archRefs := [none]

/-- Closed witness for `input_fire_flags_persist`: the flagged input survives
one update of `c10State` untouched. -/
theorem input_fire_flags_persist_witness :
    sget (update {} 1 c10State).inputs 0 = some ⟨0, 0, true, false, true⟩ :=
  input_fire_flags_persist {} 1 c10State 0 ⟨0, 0, true, false, true⟩
    (by with_unfolding_all decide) (by with_unfolding_all decide)
    (by with_unfolding_all decide) (Or.inl (by with_unfolding_all decide))
    (by with_unfolding_all decide)

end ECSModules
